import Mathlib

/-!
Verification development for the atlas query-permission plugin
(src/plugin/plugin.go, the QueryValidatePlugin part).

The Go code walks protobuf message descriptors and produces, per service
method, three resolved tables: filtering options, sortable paths and
selectable paths.  We embed the descriptor data model and the resolution
functions as executable Lean definitions, translated from the Go source.

Conventions of the embedding:
- Go nil pointers become Option; the nil-safe proto getters become the
  opt* helper functions below.
- Functions that can call p.Fail (which aborts the whole generation unit)
  return Except String.
- The recursive resolvers getFilteringDataAux / getSortingDataAux /
  getFieldSelectionDataAux recurse on the nesting budget.  In Go the only
  termination guard is the budget itself, so the Lean functions take an
  explicit fuel argument (structural recursion) and return none when the
  fuel is exhausted; `none` models a run of the Go code whose recursion
  is not bounded by the given fuel.  Fuel equal to the budget is proved
  sufficient whenever the budget is at least 1.
- Go struct fieldValidate is named FieldValidate.
-/

/-- options.QueryValidate_FilterOperator from the options package. -/
inductive FilterOperator where
  | ALL
  | EQ
  | MATCH
  | GT
  | GE
  | LT
  | LE
  | IN
  | IEQ
deriving DecidableEq, Repr

/-- options.QueryValidate_ValueType from the options package. -/
inductive ValueType where
  | DEFAULT
  | STRING
  | NUMBER
  | BOOL
deriving DecidableEq, Repr

/-- descriptor.FieldDescriptorProto_Type (the protobuf field kinds). -/
inductive FieldType where
  | TYPE_DOUBLE
  | TYPE_FLOAT
  | TYPE_INT64
  | TYPE_UINT64
  | TYPE_INT32
  | TYPE_FIXED64
  | TYPE_FIXED32
  | TYPE_BOOL
  | TYPE_STRING
  | TYPE_GROUP
  | TYPE_MESSAGE
  | TYPE_BYTES
  | TYPE_UINT32
  | TYPE_ENUM
  | TYPE_SFIXED32
  | TYPE_SFIXED64
  | TYPE_SINT32
  | TYPE_SINT64
deriving DecidableEq, Repr

/-- options.QueryValidate_Filtering: allow and deny operator lists. -/
structure QVFiltering where
  allow : List FilterOperator
  deny : List FilterOperator
deriving DecidableEq, Repr

/-- options.QueryValidate_Sorting. -/
structure QVSorting where
  disable : Bool
deriving DecidableEq, Repr

/-- options.QueryValidate_FieldSelection. -/
structure QVFieldSelection where
  disable : Bool
deriving DecidableEq, Repr

/-- options.QueryValidate: the per-field annotation.
Modelled from the spec (the options proto of this repository is not under
src/): optional value-type override, allow/deny operator lists, sorting
and field-selection disable sub-options, nesting-enabled flag,
allowed-nested-field-name list, and an optional synthetic target-message
reference (valueTypeUrl, empty string when absent). -/
structure QueryValidate where
  filtering : Option QVFiltering
  sorting : Option QVSorting
  fieldSelection : Option QVFieldSelection
  valueType : ValueType
  valueTypeUrl : String
  enableNestedFields : Bool
  nestedFields : List String
deriving DecidableEq, Repr

/-- options.MessageQueryValidate_QueryValidateEntry: a message-level
synthetic field declaration (name plus annotation). -/
structure QueryValidateEntry where
  name : String
  value : Option QueryValidate
deriving DecidableEq, Repr

/-- options.MessageQueryValidate: message-level directives.
Modelled from the spec for the parts that live in the options proto:
"nesting depth is a positive integer" and the per-message override is
optional, so nestedFieldDepthLimit is a Nat with 0 meaning "unset"
(matching the Go check `opts.NestedFieldDepthLimit != 0`). -/
structure MessageQueryValidate where
  validate : List QueryValidateEntry
  enableNestedFields : Bool
  nestedFieldDepthLimit : Nat
deriving DecidableEq, Repr

/-- descriptor.FieldDescriptorProto, restricted to what the plugin reads:
name, type, type name (for message/enum kinds), the repeated label and
the validate extension on its options ('none' models a field without
options or without the extension). -/
structure FieldDescriptorProto where
  name : String
  typeName : String
  type : FieldType
  repeated : Bool
  validate : Option QueryValidate
deriving DecidableEq, Repr

/-- generator.Descriptor, restricted to what the plugin reads: qualified
name, ordered fields and the message extension on its options. -/
structure Descriptor where
  name : String
  fields : List FieldDescriptorProto
  msgOptions : Option MessageQueryValidate
deriving DecidableEq, Repr

/-- The schema repository behind p.ObjectNamed: qualified type name to
message descriptor.  References are by name, so cyclic schema graphs are
representable. -/
abbrev Env := List (String × Descriptor)

/-- p.ObjectNamed as a lookup; none models a name the generator cannot
resolve (in Go that aborts generation). -/
def envLookup (env : Env) (n : String) : Option Descriptor :=
  match env with
  | [] => none
  | (k, d) :: rest => if k = n then some d else envLookup rest n

/-- Plugin configuration set by Init: maxNesting and alwaysNest. -/
structure Config where
  maxNesting : Nat
  alwaysNest : Bool
deriving DecidableEq, Repr

/-- Init for maxNesting: when the nested_field_depth_limit parameter is
absent the default is 2; when present but unparseable the zero value is
kept; when parsed its value is used; afterwards the result is clamped to
a minimum of 1.  `none` is no parameter, `some none` an unparseable one,
`some (some n)` a parsed value. -/
def initMaxNesting (param : Option (Option Int)) : Nat :=
  let m : Int :=
    match param with
    | none => 2
    | some none => 0
    | some (some n) => n
  if m < 1 then 1 else m.toNat

/-- Init: builds the configuration from the two generator parameters. -/
def initConfig (depthParam : Option (Option Int)) (alwaysNest : Bool) : Config :=
  { maxNesting := initMaxNesting depthParam, alwaysNest := alwaysNest }

/- Nil-safe getters mirroring the generated proto getters. -/

/-- opts.GetFiltering().GetAllow(). -/
def optAllow : Option QueryValidate → List FilterOperator
  | none => []
  | some q =>
    match q.filtering with
    | none => []
    | some fl => fl.allow

/-- opts.GetFiltering().GetDeny(). -/
def optDeny : Option QueryValidate → List FilterOperator
  | none => []
  | some q =>
    match q.filtering with
    | none => []
    | some fl => fl.deny

/-- opts.GetSorting().GetDisable(). -/
def optSortingDisable : Option QueryValidate → Bool
  | none => false
  | some q =>
    match q.sorting with
    | none => false
    | some s => s.disable

/-- opts.GetFieldSelection().GetDisable(). -/
def optFieldSelectionDisable : Option QueryValidate → Bool
  | none => false
  | some q =>
    match q.fieldSelection with
    | none => false
    | some s => s.disable

/-- opts.GetValueType(). -/
def optValueType : Option QueryValidate → ValueType
  | none => ValueType.DEFAULT
  | some q => q.valueType

/-- opts.GetValueTypeUrl(). -/
def optValueTypeUrl : Option QueryValidate → String
  | none => ""
  | some q => q.valueTypeUrl

/-- opts.GetEnableNestedFields(). -/
def optEnableNestedFields : Option QueryValidate → Bool
  | none => false
  | some q => q.enableNestedFields

/-- opts.GetNestedFields(). -/
def optNestedFields : Option QueryValidate → List String
  | none => []
  | some q => q.nestedFields

/-- msgOpts.GetEnableNestedFields() on the message options. -/
def msgOptEnableNestedFields : Option MessageQueryValidate → Bool
  | none => false
  | some o => o.enableNestedFields

/- Well-known type names used by the plugin. -/

def protoTypeTimestamp : String := ".google.protobuf.Timestamp"
def protoTypeUUID : String := ".gorm.types.UUID"
def protoTypeUUIDValue : String := ".gorm.types.UUIDValue"
def protoTypeResource : String := ".atlas.rpc.Identifier"
def protoTypeInet : String := ".gorm.types.InetValue"
def protoTypeJSONValue : String := ".gorm.types.JSONValue"
def protoTypeStringValue : String := ".google.protobuf.StringValue"
def protoTypeDoubleValue : String := ".google.protobuf.DoubleValue"
def protoTypeFloatValue : String := ".google.protobuf.FloatValue"
def protoTypeInt32Value : String := ".google.protobuf.Int32Value"
def protoTypeInt64Value : String := ".google.protobuf.Int64Value"
def protoTypeUInt32Value : String := ".google.protobuf.UInt32Value"
def protoTypeUInt64Value : String := ".google.protobuf.UInt64Value"
def protoTypeBoolValue : String := ".google.protobuf.BoolValue"

def filteringMarker : String := ".infoblox.api.Filtering"
def sortingMarker : String := ".infoblox.api.Sorting"
def fieldSelectionMarker : String := ".infoblox.api.FieldSelection"

/-- getQueryValidationOptions: extracts the validate extension from a
field; when the annotation carries a synthetic target reference
(valueTypeUrl non-empty) the sorting and field-selection sub-options
default to disabled when absent. -/
def getQueryValidationOptions (f : FieldDescriptorProto) : Option QueryValidate :=
  match f.validate with
  | none => none
  | some opts =>
    if opts.valueTypeUrl = "" then some opts
    else
      some { opts with
        sorting := some (opts.sorting.getD { disable := true }),
        fieldSelection := some (opts.fieldSelection.getD { disable := true }) }

/-- getMessageOptions: the message extension on a descriptor. -/
def getMessageOptions (msg : Descriptor) : Option MessageQueryValidate :=
  msg.msgOptions

/-- The per-entry processing loop of getMessageQueryValidationOptions:
an entry with an empty name or a missing value aborts; a non-empty
allowed-nested-field list switches on enableNestedFields; sorting and
field-selection sub-options default to disabled when absent. -/
def gMQVOEntries (msgName : String) : List QueryValidateEntry → Except String (List QueryValidateEntry)
  | [] => Except.ok []
  | e :: es =>
    if e.name = "" then
      Except.error ("empty synthetic validate option for message " ++ msgName)
    else
      match e.value with
      | none =>
        Except.error ("empty synthetic validate option for field " ++ msgName ++ "." ++ e.name)
      | some o =>
        let o1 := if o.nestedFields ≠ [] then { o with enableNestedFields := true } else o
        let o2 := { o1 with
          sorting := some (o1.sorting.getD { disable := true }),
          fieldSelection := some (o1.fieldSelection.getD { disable := true }) }
        match gMQVOEntries msgName es with
        | Except.error err => Except.error err
        | Except.ok rest => Except.ok ({ name := e.name, value := some o2 } :: rest)

/-- getMessageQueryValidationOptions: the message-level synthetic field
declarations, after defaulting; no message options yields the empty
list. -/
def getMessageQueryValidationOptions (msg : Descriptor) : Except String (List QueryValidateEntry) :=
  match msg.msgOptions with
  | none => Except.ok []
  | some opts => gMQVOEntries msg.name opts.validate

/-- syntheticField: when the annotation references a target message
(valueTypeUrl non-empty) materialize a virtual optional message-kind
field named [name] carrying the annotation; the reference must resolve
in the schema repository. -/
def syntheticField (env : Env) (name : String) (o : Option QueryValidate) : Except String (Option FieldDescriptorProto) :=
  match o with
  | none => Except.ok none
  | some q =>
    if q.valueTypeUrl = "" then Except.ok none
    else
      match envLookup env q.valueTypeUrl with
      | none => Except.error ("Cannot find named object of type " ++ q.valueTypeUrl)
      | some _ =>
        Except.ok (some {
          name := name,
          typeName := q.valueTypeUrl,
          type := FieldType.TYPE_MESSAGE,
          repeated := false,
          validate := some q })

/-- getValueType: the type classifier, mapping the declared field type
(and type name for well-known message wrappers) to a value category. -/
def getValueType (f : FieldDescriptorProto) : ValueType :=
  match f.type with
  | FieldType.TYPE_STRING => ValueType.STRING
  | FieldType.TYPE_ENUM => ValueType.STRING
  | FieldType.TYPE_BOOL => ValueType.BOOL
  | FieldType.TYPE_DOUBLE => ValueType.NUMBER
  | FieldType.TYPE_FLOAT => ValueType.NUMBER
  | FieldType.TYPE_INT32 => ValueType.NUMBER
  | FieldType.TYPE_INT64 => ValueType.NUMBER
  | FieldType.TYPE_SINT32 => ValueType.NUMBER
  | FieldType.TYPE_SINT64 => ValueType.NUMBER
  | FieldType.TYPE_UINT32 => ValueType.NUMBER
  | FieldType.TYPE_UINT64 => ValueType.NUMBER
  | FieldType.TYPE_MESSAGE =>
    if f.typeName = protoTypeResource ∨ f.typeName = protoTypeTimestamp ∨
        f.typeName = protoTypeUUID ∨ f.typeName = protoTypeUUIDValue ∨
        f.typeName = protoTypeInet ∨ f.typeName = protoTypeStringValue ∨
        f.typeName = protoTypeJSONValue then
      ValueType.STRING
    else if f.typeName = protoTypeDoubleValue ∨ f.typeName = protoTypeFloatValue ∨
        f.typeName = protoTypeInt32Value ∨ f.typeName = protoTypeInt64Value ∨
        f.typeName = protoTypeUInt32Value ∨ f.typeName = protoTypeUInt64Value then
      ValueType.NUMBER
    else if f.typeName = protoTypeBoolValue then
      ValueType.BOOL
    else
      ValueType.DEFAULT
  | _ => ValueType.DEFAULT

/-- isAllowedNestedField: membership in the allowed-nested-field list
(vacuously true when the list is empty).  Defined in the source but
never called by the resolvers. -/
def isAllowedNestedField (n : String) (o : Option QueryValidate) : Bool :=
  match o with
  | none => true
  | some q =>
    if q.nestedFields = [] then true
    else q.nestedFields.contains n

/-- allowNested: nesting is permitted when the global flag is set, the
containing message enables it, the field annotation enables it, or the
field annotation carries a non-empty allowed-nested-field list. -/
def allowNested (cfg : Config) (msgDesc : Descriptor) (fieldOpts : Option QueryValidate) : Bool :=
  cfg.alwaysNest || msgOptEnableNestedFields (getMessageOptions msgDesc) ||
    optEnableNestedFields fieldOpts || 0 < (optNestedFields fieldOpts).length

/-- getNestDepth: the per-message nesting-depth override when present
(non-zero), else the configured default. -/
def getNestDepth (cfg : Config) (msg : Descriptor) : Nat :=
  match getMessageOptions msg with
  | none => cfg.maxNesting
  | some opts =>
    if opts.nestedFieldDepthLimit ≠ 0 then opts.nestedFieldDepthLimit else cfg.maxNesting

/-- The operator-eligibility table per value category (the supportedOps
switch inside getDenyRules; an uncategorized type supports nothing). -/
def supportedOpsFor : ValueType → List FilterOperator
  | ValueType.NUMBER =>
    [FilterOperator.EQ, FilterOperator.GT, FilterOperator.GE,
     FilterOperator.LT, FilterOperator.LE, FilterOperator.IN]
  | ValueType.STRING =>
    [FilterOperator.EQ, FilterOperator.MATCH, FilterOperator.GT, FilterOperator.GE,
     FilterOperator.LT, FilterOperator.LE, FilterOperator.IN, FilterOperator.IEQ]
  | ValueType.BOOL => [FilterOperator.EQ, FilterOperator.IN]
  | ValueType.DEFAULT => []

/-- getDenyRules: the allow/deny resolver.  Both lists set is a conflict;
both empty means no restriction; every listed operator must be eligible
for the category or be ALL; an allow list resolves to the eligibility
table minus the allow list (ALL in the allow list clears the result);
a deny list resolves verbatim (ALL anywhere collapses it to [ALL]). -/
def getDenyRules (fieldName : String) (opts : Option QueryValidate) (filterType : ValueType) : Except String (List FilterOperator) :=
  let opsAllowed := optAllow opts
  let opsDenied := optDeny opts
  if 0 < opsAllowed.length ∧ 0 < opsDenied.length then
    Except.error (fieldName ++ ": both allow and deny options are not allowed")
  else if opsAllowed.length = 0 ∧ opsDenied.length = 0 then
    Except.ok []
  else
    let supportedOps := supportedOpsFor filterType
    let ops := if 0 < opsDenied.length then opsDenied else opsAllowed
    if ops.all (fun item => supportedOps.contains item || item == FilterOperator.ALL) then
      if 0 < opsAllowed.length then
        if ops.contains FilterOperator.ALL then Except.ok []
        else Except.ok (supportedOps.filter (fun op => !(ops.contains op)))
      else
        if ops.contains FilterOperator.ALL then Except.ok [FilterOperator.ALL]
        else Except.ok ops
    else
      Except.error ("filtering operator is not supported for fieldValidate " ++ fieldName)

/-- Go struct fieldValidate: a resolved filtering entry (field path plus
value type and denied operators, the FilteringOption). -/
structure FilteringOption where
  valueType : ValueType
  deny : List FilterOperator
deriving DecidableEq, Repr

/-- A resolved filtering table row. -/
structure FieldValidate where
  fieldName : String
  option : FilteringOption
deriving DecidableEq, Repr

/-- The first loop of getFilteringDataAux: message-level synthetic
declarations either materialize extra fields (processed before the real
fields) or directly yield resolved entries from their own annotation. -/
def filteringSynthPass (env : Env) : List QueryValidateEntry → Except String (List FieldDescriptorProto × List FieldValidate)
  | [] => Except.ok ([], [])
  | e :: es =>
    match syntheticField env e.name e.value with
    | Except.error err => Except.error err
    | Except.ok (some f) =>
      match filteringSynthPass env es with
      | Except.error err => Except.error err
      | Except.ok (extra, data) => Except.ok (f :: extra, data)
    | Except.ok none =>
      match getDenyRules e.name e.value (optValueType e.value) with
      | Except.error err => Except.error err
      | Except.ok deny =>
        match filteringSynthPass env es with
        | Except.error err => Except.error err
        | Except.ok (extra, data) =>
          Except.ok (extra, { fieldName := e.name, option := { valueType := optValueType e.value, deny := deny } } :: data)

/-- The body of the per-field loop of getFilteringDataAux.  `recur` is the
recursive resolution of a nested message at the decremented budget. -/
def filteringOne (cfg : Config) (env : Env)
    (recur : Descriptor → Nat → Option (Except String (List FieldValidate)))
    (msg : Descriptor) (mn : Nat) (field0 : FieldDescriptorProto) :
    Option (Except String (List FieldValidate)) :=
  match syntheticField env field0.name (getQueryValidationOptions field0) with
  | Except.error e => some (Except.error e)
  | Except.ok osf =>
    let field := osf.getD field0
    let opts := getQueryValidationOptions field
    let fieldName := if field.typeName = protoTypeJSONValue then field.name ++ ".*" else field.name
    if optValueType opts = ValueType.DEFAULT then
      if field.repeated then
        some (Except.ok
          [{ fieldName := fieldName,
             option := { valueType := ValueType.DEFAULT, deny := [FilterOperator.ALL] } }])
      else if getValueType field = ValueType.DEFAULT then
        if mn = 1 then
          some (Except.ok [])
        else if field.type = FieldType.TYPE_MESSAGE ∧ allowNested cfg msg opts then
          match envLookup env field.typeName with
          | none => some (Except.error ("Cannot find named object of type " ++ field.typeName))
          | some nested =>
            match recur nested (mn - 1) with
            | none => none
            | some (Except.error e) => some (Except.error e)
            | some (Except.ok sub) =>
              some (Except.ok (sub.map (fun v =>
                { fieldName := fieldName ++ "." ++ v.fieldName, option := v.option })))
        else
          some (Except.ok
            [{ fieldName := fieldName,
               option := { valueType := ValueType.DEFAULT, deny := [FilterOperator.ALL] } }])
      else
        match getDenyRules fieldName opts (getValueType field) with
        | Except.error e => some (Except.error e)
        | Except.ok deny =>
          some (Except.ok
            [{ fieldName := fieldName,
               option := { valueType := getValueType field, deny := deny } }])
    else
      match getDenyRules fieldName opts (optValueType opts) with
      | Except.error e => some (Except.error e)
      | Except.ok deny =>
        some (Except.ok
          [{ fieldName := fieldName,
             option := { valueType := optValueType opts, deny := deny } }])

/-- The per-field loop of getFilteringDataAux, in declaration order; a
failing field aborts the whole message. -/
def filteringFields (cfg : Config) (env : Env)
    (recur : Descriptor → Nat → Option (Except String (List FieldValidate)))
    (msg : Descriptor) (mn : Nat) :
    List FieldDescriptorProto → Option (Except String (List FieldValidate))
  | [] => some (Except.ok [])
  | f :: fs =>
    match filteringOne cfg env recur msg mn f with
    | none => none
    | some (Except.error e) => some (Except.error e)
    | some (Except.ok c) =>
      match filteringFields cfg env recur msg mn fs with
      | none => none
      | some (Except.error e) => some (Except.error e)
      | some (Except.ok rest) => some (Except.ok (c ++ rest))

/-- getFilteringDataAux: resolve the filtering table of a message at the
given budget.  The first argument is the recursion fuel (none when it is
exhausted); fuel equal to the budget is sufficient for budgets from 1. -/
def getFilteringDataAux (cfg : Config) (env : Env) : Nat → Descriptor → Nat → Option (Except String (List FieldValidate))
  | 0, _, _ => none
  | fuel + 1, msg, mn =>
    match getMessageQueryValidationOptions msg with
    | Except.error e => some (Except.error e)
    | Except.ok entries =>
      match filteringSynthPass env entries with
      | Except.error e => some (Except.error e)
      | Except.ok (extra, data0) =>
        match filteringFields cfg env (fun d m => getFilteringDataAux cfg env fuel d m) msg mn (extra ++ msg.fields) with
        | none => none
        | some (Except.error e) => some (Except.error e)
        | some (Except.ok rest) => some (Except.ok (data0 ++ rest))

/-- getFilteringData: top-level filtering resolution at the message's
nesting depth. -/
def getFilteringData (cfg : Config) (env : Env) (msg : Descriptor) : Option (Except String (List FieldValidate)) :=
  getFilteringDataAux cfg env (getNestDepth cfg msg) msg (getNestDepth cfg msg)

/-- The first loop of getSortingDataAux: a synthetic declaration with a
target reference materializes a field; otherwise its name is a sortable
path unless its sorting sub-option is disabled. -/
def sortingSynthPass (env : Env) : List QueryValidateEntry → Except String (List FieldDescriptorProto × List String)
  | [] => Except.ok ([], [])
  | e :: es =>
    match syntheticField env e.name e.value with
    | Except.error err => Except.error err
    | Except.ok (some f) =>
      match sortingSynthPass env es with
      | Except.error err => Except.error err
      | Except.ok (extra, data) => Except.ok (f :: extra, data)
    | Except.ok none =>
      match sortingSynthPass env es with
      | Except.error err => Except.error err
      | Except.ok (extra, data) =>
        if !(optSortingDisable e.value) then Except.ok (extra, e.name :: data)
        else Except.ok (extra, data)

/-- The body of the per-field loop of getSortingDataAux. -/
def sortingOne (cfg : Config) (env : Env)
    (recur : Descriptor → Nat → Option (Except String (List String)))
    (msg : Descriptor) (mn : Nat) (field0 : FieldDescriptorProto) :
    Option (Except String (List String)) :=
  match syntheticField env field0.name (getQueryValidationOptions field0) with
  | Except.error e => some (Except.error e)
  | Except.ok osf =>
    let field := osf.getD field0
    let opts := getQueryValidationOptions field
    if optSortingDisable opts then some (Except.ok [])
    else
      let fieldName := field.name
      if optValueType opts = ValueType.DEFAULT then
        if field.repeated then some (Except.ok [])
        else if getValueType field = ValueType.DEFAULT then
          if mn = 1 then some (Except.ok [])
          else if field.type = FieldType.TYPE_MESSAGE ∧ allowNested cfg msg opts then
            match envLookup env field.typeName with
            | none => some (Except.error ("Cannot find named object of type " ++ field.typeName))
            | some nested =>
              match recur nested (mn - 1) with
              | none => none
              | some (Except.error e) => some (Except.error e)
              | some (Except.ok sub) =>
                some (Except.ok (sub.map (fun v => fieldName ++ "." ++ v)))
          else some (Except.ok [])
        else some (Except.ok [fieldName])
      else some (Except.ok [fieldName])

/-- The per-field loop of getSortingDataAux. -/
def sortingFields (cfg : Config) (env : Env)
    (recur : Descriptor → Nat → Option (Except String (List String)))
    (msg : Descriptor) (mn : Nat) :
    List FieldDescriptorProto → Option (Except String (List String))
  | [] => some (Except.ok [])
  | f :: fs =>
    match sortingOne cfg env recur msg mn f with
    | none => none
    | some (Except.error e) => some (Except.error e)
    | some (Except.ok c) =>
      match sortingFields cfg env recur msg mn fs with
      | none => none
      | some (Except.error e) => some (Except.error e)
      | some (Except.ok rest) => some (Except.ok (c ++ rest))

/-- getSortingDataAux: resolve the sortable paths of a message at the
given budget, with explicit recursion fuel. -/
def getSortingDataAux (cfg : Config) (env : Env) : Nat → Descriptor → Nat → Option (Except String (List String))
  | 0, _, _ => none
  | fuel + 1, msg, mn =>
    match getMessageQueryValidationOptions msg with
    | Except.error e => some (Except.error e)
    | Except.ok entries =>
      match sortingSynthPass env entries with
      | Except.error e => some (Except.error e)
      | Except.ok (extra, data0) =>
        match sortingFields cfg env (fun d m => getSortingDataAux cfg env fuel d m) msg mn (extra ++ msg.fields) with
        | none => none
        | some (Except.error e) => some (Except.error e)
        | some (Except.ok rest) => some (Except.ok (data0 ++ rest))

/-- getSortingData: top-level sorting resolution at the message's nesting
depth. -/
def getSortingData (cfg : Config) (env : Env) (msg : Descriptor) : Option (Except String (List String)) :=
  getSortingDataAux cfg env (getNestDepth cfg msg) msg (getNestDepth cfg msg)

/-- The type names that the field-selection resolver treats as terminal
wrapper types (its inner switch; note the generic JSON wrapper is not
among them). -/
def fsWrapperType (tn : String) : Bool :=
  tn == protoTypeResource || tn == protoTypeTimestamp || tn == protoTypeUUID ||
    tn == protoTypeUUIDValue || tn == protoTypeInet || tn == protoTypeStringValue ||
    tn == protoTypeBoolValue || tn == protoTypeDoubleValue || tn == protoTypeFloatValue ||
    tn == protoTypeInt32Value || tn == protoTypeInt64Value || tn == protoTypeUInt32Value ||
    tn == protoTypeUInt64Value

/-- The first loop of getFieldSelectionDataAux. -/
def fieldSelectionSynthPass (env : Env) : List QueryValidateEntry → Except String (List FieldDescriptorProto × List String)
  | [] => Except.ok ([], [])
  | e :: es =>
    match syntheticField env e.name e.value with
    | Except.error err => Except.error err
    | Except.ok (some f) =>
      match fieldSelectionSynthPass env es with
      | Except.error err => Except.error err
      | Except.ok (extra, data) => Except.ok (f :: extra, data)
    | Except.ok none =>
      match fieldSelectionSynthPass env es with
      | Except.error err => Except.error err
      | Except.ok (extra, data) =>
        if !(optFieldSelectionDisable e.value) then Except.ok (extra, e.name :: data)
        else Except.ok (extra, data)

/-- The body of the per-field loop of getFieldSelectionDataAux.  Unlike
the other two resolvers it recurses into every non-wrapper message-kind
field without consulting allowNested, and the field's own path is
appended after the spliced nested paths. -/
def fieldSelectionOne (_cfg : Config) (env : Env)
    (recur : Descriptor → Nat → Option (Except String (List String)))
    (_msg : Descriptor) (mn : Nat) (field0 : FieldDescriptorProto) :
    Option (Except String (List String)) :=
  match syntheticField env field0.name (getQueryValidationOptions field0) with
  | Except.error e => some (Except.error e)
  | Except.ok osf =>
    let field := osf.getD field0
    let opts := getQueryValidationOptions field
    if optFieldSelectionDisable opts then some (Except.ok [])
    else
      let fieldName := field.name
      if optValueType opts = ValueType.DEFAULT ∧ field.type = FieldType.TYPE_MESSAGE ∧
          fsWrapperType field.typeName = false then
        if mn = 1 then some (Except.ok [])
        else
          match envLookup env field.typeName with
          | none => some (Except.error ("Cannot find named object of type " ++ field.typeName))
          | some nested =>
            match recur nested (mn - 1) with
            | none => none
            | some (Except.error e) => some (Except.error e)
            | some (Except.ok sub) =>
              some (Except.ok (sub.map (fun v => fieldName ++ "." ++ v) ++ [fieldName]))
      else some (Except.ok [fieldName])

/-- The per-field loop of getFieldSelectionDataAux. -/
def fieldSelectionFields (cfg : Config) (env : Env)
    (recur : Descriptor → Nat → Option (Except String (List String)))
    (msg : Descriptor) (mn : Nat) :
    List FieldDescriptorProto → Option (Except String (List String))
  | [] => some (Except.ok [])
  | f :: fs =>
    match fieldSelectionOne cfg env recur msg mn f with
    | none => none
    | some (Except.error e) => some (Except.error e)
    | some (Except.ok c) =>
      match fieldSelectionFields cfg env recur msg mn fs with
      | none => none
      | some (Except.error e) => some (Except.error e)
      | some (Except.ok rest) => some (Except.ok (c ++ rest))

/-- getFieldSelectionDataAux: resolve the selectable paths of a message
at the given budget, with explicit recursion fuel. -/
def getFieldSelectionDataAux (cfg : Config) (env : Env) : Nat → Descriptor → Nat → Option (Except String (List String))
  | 0, _, _ => none
  | fuel + 1, msg, mn =>
    match getMessageQueryValidationOptions msg with
    | Except.error e => some (Except.error e)
    | Except.ok entries =>
      match fieldSelectionSynthPass env entries with
      | Except.error e => some (Except.error e)
      | Except.ok (extra, data0) =>
        match fieldSelectionFields cfg env (fun d m => getFieldSelectionDataAux cfg env fuel d m) msg mn (extra ++ msg.fields) with
        | none => none
        | some (Except.error e) => some (Except.error e)
        | some (Except.ok rest) => some (Except.ok (data0 ++ rest))

/-- getFieldSelectionData: top-level field-selection resolution at the
message's nesting depth. -/
def getFieldSelectionData (cfg : Config) (env : Env) (msg : Descriptor) : Option (Except String (List String)) :=
  getFieldSelectionDataAux cfg env (getNestDepth cfg msg) msg (getNestDepth cfg msg)

/-- A service method: gRPC-style identifier plus request and response
message type names. -/
structure MethodDescriptorProto where
  name : String
  inputType : String
  outputType : String
deriving DecidableEq, Repr

/-- hasFiltering: the request declares the filtering capability marker. -/
def hasFiltering (msg : Descriptor) : Bool :=
  msg.fields.any (fun f => f.typeName == filteringMarker)

/-- hasSorting: the request declares the sorting capability marker. -/
def hasSorting (msg : Descriptor) : Bool :=
  msg.fields.any (fun f => f.typeName == sortingMarker)

/-- hasFieldSelection: the request declares the field-selection marker. -/
def hasFieldSelection (msg : Descriptor) : Bool :=
  msg.fields.any (fun f => f.typeName == fieldSelectionMarker)

/-- The field scan of getResultMessage: the first message-kind field
literally named "result" or "results" locates the result schema. -/
def resultMessageScan (env : Env) : List FieldDescriptorProto → Except String (Option Descriptor)
  | [] => Except.ok none
  | f :: fs =>
    if (f.name = "result" ∨ f.name = "results") ∧ f.type = FieldType.TYPE_MESSAGE then
      match envLookup env f.typeName with
      | none => Except.error ("Cannot find named object of type " ++ f.typeName)
      | some d => Except.ok (some d)
    else resultMessageScan env fs

/-- getResultMessage on a response descriptor. -/
def getResultMessage (env : Env) (msg : Descriptor) : Except String (Option Descriptor) :=
  resultMessageScan env msg.fields

/-- The per-method decision of genFiltering: an entry is produced only
when the request carries the filtering marker and the response has a
result message; `ok none` is "no table entry for this method". -/
def filteringTableEntry (cfg : Config) (env : Env) (m : MethodDescriptorProto) : Option (Except String (Option (List FieldValidate))) :=
  match envLookup env m.inputType, envLookup env m.outputType with
  | some input, some output =>
    (match getResultMessage env output with
     | Except.error e => some (Except.error e)
     | Except.ok none => some (Except.ok none)
     | Except.ok (some resultMsg) =>
       if hasFiltering input then
         match getFilteringData cfg env resultMsg with
         | none => none
         | some (Except.error e) => some (Except.error e)
         | some (Except.ok data) => some (Except.ok (some data))
       else some (Except.ok none))
  | _, _ => some (Except.error ("cannot resolve method types for " ++ m.name))

/-- The per-method decision of genSorting. -/
def sortingTableEntry (cfg : Config) (env : Env) (m : MethodDescriptorProto) : Option (Except String (Option (List String))) :=
  match envLookup env m.inputType, envLookup env m.outputType with
  | some input, some output =>
    (match getResultMessage env output with
     | Except.error e => some (Except.error e)
     | Except.ok none => some (Except.ok none)
     | Except.ok (some resultMsg) =>
       if hasSorting input then
         match getSortingData cfg env resultMsg with
         | none => none
         | some (Except.error e) => some (Except.error e)
         | some (Except.ok data) => some (Except.ok (some data))
       else some (Except.ok none))
  | _, _ => some (Except.error ("cannot resolve method types for " ++ m.name))

/-- The per-method decision of genFieldSelection. -/
def fieldSelectionTableEntry (cfg : Config) (env : Env) (m : MethodDescriptorProto) : Option (Except String (Option (List String))) :=
  match envLookup env m.inputType, envLookup env m.outputType with
  | some input, some output =>
    (match getResultMessage env output with
     | Except.error e => some (Except.error e)
     | Except.ok none => some (Except.ok none)
     | Except.ok (some resultMsg) =>
       if hasFieldSelection input then
         match getFieldSelectionData cfg env resultMsg with
         | none => none
         | some (Except.error e) => some (Except.error e)
         | some (Except.ok data) => some (Except.ok (some data))
       else some (Except.ok none))
  | _, _ => some (Except.error ("cannot resolve method types for " ++ m.name))

/-! Helper lemmas. -/

/-- An annotation without a synthetic target reference never materializes
a synthetic field. -/
theorem syntheticField_of_url_empty (env : Env) (n : String) (o : Option QueryValidate)
    (h : optValueTypeUrl o = "") : syntheticField env n o = Except.ok none := by
  cases o with
  | none => rfl
  | some q =>
    simp only [optValueTypeUrl] at h
    simp [syntheticField, h]

/-- A message-kind field classified DEFAULT is not the JSON wrapper. -/
theorem typeName_ne_json_of_default (f : FieldDescriptorProto)
    (hty : f.type = FieldType.TYPE_MESSAGE) (hcls : getValueType f = ValueType.DEFAULT) :
    f.typeName ≠ protoTypeJSONValue := by
  intro hjson
  simp [getValueType, hty, hjson] at hcls

/-- A message-kind field classified DEFAULT is not one of the terminal
wrapper type names of the field-selection resolver. -/
theorem fsWrapperType_of_default (f : FieldDescriptorProto)
    (hty : f.type = FieldType.TYPE_MESSAGE) (hcls : getValueType f = ValueType.DEFAULT) :
    fsWrapperType f.typeName = false := by
  simp only [getValueType, hty] at hcls
  split at hcls
  · exact absurd hcls (by simp)
  split at hcls
  · exact absurd hcls (by simp)
  split at hcls
  · exact absurd hcls (by simp)
  rename_i h1 h2 h3
  push_neg at h1 h2
  simp [fsWrapperType, beq_iff_eq, h1.1, h1.2.1, h1.2.2.1, h1.2.2.2.1, h1.2.2.2.2.1,
    h1.2.2.2.2.2.1, h2.1, h2.2.1, h2.2.2.1, h2.2.2.2.1, h2.2.2.2.2, h3]

/-! Concrete example schemas used by counterexamples and witnesses. -/

/-- A plain message with one string field. -/
def exM3 : Descriptor :=
  { name := "M3",
    fields := [{ name := "code", typeName := "", type := FieldType.TYPE_STRING, repeated := false, validate := none }],
    msgOptions := none }

/-- A schema repository holding exM3. -/
def exEnv : Env := [(".pkg.M3", exM3)]

/-- An unannotated message-kind field referencing exM3. -/
def exDetail : FieldDescriptorProto :=
  { name := "detail", typeName := ".pkg.M3", type := FieldType.TYPE_MESSAGE, repeated := false, validate := none }

/-- A message with a single nested-message field. -/
def exM2 : Descriptor := { name := "M2", fields := [exDetail], msgOptions := none }

/-- Configuration with the default budget 2 and nesting not globally
enabled. -/
def exCfg : Config := { maxNesting := 2, alwaysNest := false }

/-- Claim C1 (counterexample): nesting is not permitted for the field
"detail" (no global flag, no message or field opt-in), and the budget is
2, yet the field-selection resolver still recurses into M3 (the path
"detail.code" appears) and also records the separate entry "detail"
after the nested paths.  This refutes the claim for the FIELD_SELECTION
capability kind on this concrete schema. -/
theorem claim1_fieldselection_counterexample :
    allowNested exCfg exM2 (getQueryValidationOptions exDetail) = false ∧
    getNestDepth exCfg exM2 = 2 ∧
    getFieldSelectionData exCfg exEnv exM2 = some (Except.ok ["detail.code", "detail"]) :=
  ⟨rfl, rfl, rfl⟩

/-- Claim C1 (amended): for a non-repeated, non-synthetic message-kind
field of DEFAULT category with budget above 1 and its capability not
disabled: FILTERING and SORTING recurse exactly when nesting is
permitted, re-parent every returned path with "field." and record no
separate entry for the field (FILTERING records a fully-denied entry
instead when nesting is not permitted); FIELD_SELECTION recurses
unconditionally, ignoring the nesting permission, and appends the
field's own path after the re-parented nested paths. -/
theorem claim1_nested_recursion_amended (cfg : Config) (env : Env)
    (recF : Descriptor → Nat → Option (Except String (List FieldValidate)))
    (recS recFS : Descriptor → Nat → Option (Except String (List String)))
    (msg nested : Descriptor) (mn : Nat) (f : FieldDescriptorProto)
    (hurl : optValueTypeUrl (getQueryValidationOptions f) = "")
    (hvt : optValueType (getQueryValidationOptions f) = ValueType.DEFAULT)
    (hsd : optSortingDisable (getQueryValidationOptions f) = false)
    (hfsd : optFieldSelectionDisable (getQueryValidationOptions f) = false)
    (hrep : f.repeated = false)
    (hty : f.type = FieldType.TYPE_MESSAGE)
    (hcls : getValueType f = ValueType.DEFAULT)
    (hmn : mn ≠ 1)
    (hlook : envLookup env f.typeName = some nested) :
    (filteringOne cfg env recF msg mn f =
      if allowNested cfg msg (getQueryValidationOptions f) then
        Option.map (Except.map (fun sub => sub.map (fun v =>
          { fieldName := f.name ++ "." ++ v.fieldName, option := v.option })))
          (recF nested (mn - 1))
      else
        some (Except.ok
          [{ fieldName := f.name,
             option := { valueType := ValueType.DEFAULT, deny := [FilterOperator.ALL] } }])) ∧
    (sortingOne cfg env recS msg mn f =
      if allowNested cfg msg (getQueryValidationOptions f) then
        Option.map (Except.map (fun sub => sub.map (fun v => f.name ++ "." ++ v)))
          (recS nested (mn - 1))
      else some (Except.ok [])) ∧
    (fieldSelectionOne cfg env recFS msg mn f =
      Option.map (Except.map (fun sub => sub.map (fun v => f.name ++ "." ++ v) ++ [f.name]))
        (recFS nested (mn - 1))) := by
  have hjson : f.typeName ≠ protoTypeJSONValue := typeName_ne_json_of_default f hty hcls
  have hsf := syntheticField_of_url_empty env f.name (getQueryValidationOptions f) hurl
  have hwrap : fsWrapperType f.typeName = false := fsWrapperType_of_default f hty hcls
  refine ⟨?_, ?_, ?_⟩
  · simp only [filteringOne, hsf, Option.getD_none]
    simp only [hvt, hrep, hcls, hjson, hty, hmn, if_false, if_true, ite_false, ite_true,
      reduceIte, if_neg, hlook]
    by_cases han : allowNested cfg msg (getQueryValidationOptions f)
    · simp only [han, and_true, ite_true, reduceIte, if_true]
      cases hr : recF nested (mn - 1) with
      | none => simp
      | some r =>
        cases r with
        | error e => rfl
        | ok sub => rfl
    · simp [han]
  · simp only [sortingOne, hsf, Option.getD_none]
    simp only [hsd, hvt, hrep, hcls, hjson, hty, hmn, Bool.false_eq_true, if_false, ite_false,
      reduceIte, hlook]
    by_cases han : allowNested cfg msg (getQueryValidationOptions f)
    · simp only [han, and_true, ite_true, reduceIte]
      cases hr : recS nested (mn - 1) with
      | none => simp
      | some r =>
        cases r with
        | error e => rfl
        | ok sub => rfl
    · simp [han]
  · simp only [fieldSelectionOne, hsf, Option.getD_none]
    simp only [hfsd, hvt, hty, hwrap, hmn, Bool.false_eq_true, if_false, ite_false, reduceIte,
      and_self, ite_true, hlook]
    cases hr : recFS nested (mn - 1) with
    | none => simp
    | some r =>
      cases r with
      | error e => rfl
      | ok sub => rfl

/-- Claim C1 (witness): at budget 2 on the detail field (nesting not
permitted), filtering yields a single fully-denied entry and field
selection splices the nested path and still records "detail" itself. -/
theorem claim1_nested_recursion_amended_witness :
    filteringOne exCfg exEnv (fun d m => getFilteringDataAux exCfg exEnv 1 d m) exM2 2 exDetail =
      some (Except.ok
        [{ fieldName := "detail",
           option := { valueType := ValueType.DEFAULT, deny := [FilterOperator.ALL] } }]) ∧
    fieldSelectionOne exCfg exEnv (fun d m => getFieldSelectionDataAux exCfg exEnv 1 d m) exM2 2 exDetail =
      some (Except.ok ["detail.code", "detail"]) := by
  have h := claim1_nested_recursion_amended exCfg exEnv
    (fun d m => getFilteringDataAux exCfg exEnv 1 d m)
    (fun d m => getSortingDataAux exCfg exEnv 1 d m)
    (fun d m => getFieldSelectionDataAux exCfg exEnv 1 d m)
    exM2 exM3 2 exDetail rfl rfl rfl rfl rfl rfl rfl (by decide) rfl
  refine ⟨?_, ?_⟩
  · rw [h.1]; rfl
  · rw [h.2.2]; rfl

/-- An uncategorizable non-message field (bytes). -/
def exRaw : FieldDescriptorProto :=
  { name := "raw", typeName := "", type := FieldType.TYPE_BYTES, repeated := false, validate := none }

/-- A repeated message-kind field referencing exM3. -/
def exTags : FieldDescriptorProto :=
  { name := "tags", typeName := ".pkg.M3", type := FieldType.TYPE_MESSAGE, repeated := true, validate := none }

/-- A message holding the two fields above. -/
def exM5 : Descriptor := { name := "M5", fields := [exRaw, exTags], msgOptions := none }

/-- Configuration with budget 1. -/
def exCfg1 : Config := { maxNesting := 1, alwaysNest := false }

/-- Claim C5 (counterexample): at depth budget 1 two DEFAULT-category
fields are not omitted from all three tables: the bytes field "raw"
(DEFAULT, not message-kind) still appears in the field-selection table,
and the repeated message field "tags" (DEFAULT) still receives a
fully-denied filtering entry.  Only sorting omits both. -/
theorem claim5_budget_one_counterexample :
    getValueType exRaw = ValueType.DEFAULT ∧
    getValueType exTags = ValueType.DEFAULT ∧
    getNestDepth exCfg1 exM5 = 1 ∧
    getFieldSelectionData exCfg1 exEnv exM5 = some (Except.ok ["raw"]) ∧
    getFilteringData exCfg1 exEnv exM5 =
      some (Except.ok
        [{ fieldName := "tags",
           option := { valueType := ValueType.DEFAULT, deny := [FilterOperator.ALL] } }]) ∧
    getSortingData exCfg1 exEnv exM5 = some (Except.ok []) :=
  ⟨rfl, rfl, rfl, rfl, rfl, rfl⟩

/-- Claim C5 (amended): a non-repeated, non-synthetic message-kind field
of DEFAULT category (no annotation override, classifier DEFAULT) hit at
depth budget 1 is omitted entirely from all three resolved tables: it
contributes no entry and no deny record. -/
theorem claim5_budget_one_omission_amended (cfg : Config) (env : Env)
    (recF : Descriptor → Nat → Option (Except String (List FieldValidate)))
    (recS recFS : Descriptor → Nat → Option (Except String (List String)))
    (msg : Descriptor) (f : FieldDescriptorProto)
    (hurl : optValueTypeUrl (getQueryValidationOptions f) = "")
    (hvt : optValueType (getQueryValidationOptions f) = ValueType.DEFAULT)
    (hrep : f.repeated = false)
    (hty : f.type = FieldType.TYPE_MESSAGE)
    (hcls : getValueType f = ValueType.DEFAULT) :
    filteringOne cfg env recF msg 1 f = some (Except.ok []) ∧
    sortingOne cfg env recS msg 1 f = some (Except.ok []) ∧
    fieldSelectionOne cfg env recFS msg 1 f = some (Except.ok []) := by
  have hsf := syntheticField_of_url_empty env f.name (getQueryValidationOptions f) hurl
  have hwrap : fsWrapperType f.typeName = false := fsWrapperType_of_default f hty hcls
  refine ⟨?_, ?_, ?_⟩
  · simp [filteringOne, hsf, hvt, hrep, hcls]
  · cases hdis : optSortingDisable (getQueryValidationOptions f) with
    | true => simp [sortingOne, hsf, hdis]
    | false => simp [sortingOne, hsf, hdis, hvt, hrep, hcls]
  · cases hdis : optFieldSelectionDisable (getQueryValidationOptions f) with
    | true => simp [fieldSelectionOne, hsf, hdis]
    | false => simp [fieldSelectionOne, hsf, hdis, hvt, hty, hwrap]

/-- Claim C5 (witness): the omission theorem applied to the detail field
of the example schema at budget 1. -/
theorem claim5_budget_one_omission_amended_witness :
    filteringOne exCfg1 exEnv (fun d m => getFilteringDataAux exCfg1 exEnv 0 d m) exM2 1 exDetail =
      some (Except.ok []) ∧
    sortingOne exCfg1 exEnv (fun d m => getSortingDataAux exCfg1 exEnv 0 d m) exM2 1 exDetail =
      some (Except.ok []) ∧
    fieldSelectionOne exCfg1 exEnv (fun d m => getFieldSelectionDataAux exCfg1 exEnv 0 d m) exM2 1 exDetail =
      some (Except.ok []) :=
  claim5_budget_one_omission_amended exCfg1 exEnv
    (fun d m => getFilteringDataAux exCfg1 exEnv 0 d m)
    (fun d m => getSortingDataAux exCfg1 exEnv 0 d m)
    (fun d m => getFieldSelectionDataAux exCfg1 exEnv 0 d m)
    exM2 exDetail rfl rfl rfl rfl rfl

/-- A direct (non-reference) synthetic annotation with a NUMBER override
and no filtering lists. -/
def exSynthAnn : QueryValidate :=
  { filtering := none, sorting := none, fieldSelection := none,
    valueType := ValueType.NUMBER, valueTypeUrl := "",
    enableNestedFields := false, nestedFields := [] }

/-- A message declaring a synthetic field "s" while also owning a real
string field "s". -/
def exM6 : Descriptor :=
  { name := "M6",
    fields := [{ name := "s", typeName := "", type := FieldType.TYPE_STRING, repeated := false, validate := none }],
    msgOptions := some { validate := [{ name := "s", value := some exSynthAnn }],
                         enableNestedFields := false, nestedFieldDepthLimit := 0 } }

/-- Claim C6 (counterexample): the synthetic entry "s" is resolved first,
but it does not shadow the real field "s": the resolved filtering list
contains two entries for the same path, the synthetic one (NUMBER)
followed by the real one (STRING).  The real field does produce its own
separate entry. -/
theorem claim6_shadowing_counterexample :
    getFilteringData exCfg exEnv exM6 =
      some (Except.ok
        [{ fieldName := "s", option := { valueType := ValueType.NUMBER, deny := [] } },
         { fieldName := "s", option := { valueType := ValueType.STRING, deny := [] } }]) :=
  rfl

/-- Claim C6 (amended): message-level synthetic declarations are resolved
before the message's real fields, but a same-named real field is not
shadowed: for any message consisting of a direct synthetic entry named n
and a real string field also named n, the resolved filtering list holds
the synthetic entry first and the real field's entry after it. -/
theorem claim6_synthetic_order_amended (cfg : Config) (env : Env)
    (k mn : Nat) (mName n : String) (vt : ValueType) (hn : n ≠ "") :
    getFilteringDataAux cfg env (k + 1)
      { name := mName,
        fields := [{ name := n, typeName := "", type := FieldType.TYPE_STRING, repeated := false, validate := none }],
        msgOptions := some
          { validate :=
              [{ name := n,
                 value := some { filtering := none, sorting := none, fieldSelection := none,
                                 valueType := vt, valueTypeUrl := "",
                                 enableNestedFields := false, nestedFields := [] } }],
            enableNestedFields := false, nestedFieldDepthLimit := 0 } } mn =
      some (Except.ok
        [{ fieldName := n, option := { valueType := vt, deny := [] } },
         { fieldName := n, option := { valueType := ValueType.STRING, deny := [] } }]) := by
  simp [getFilteringDataAux, getMessageQueryValidationOptions, gMQVOEntries, hn,
    filteringSynthPass, syntheticField, getDenyRules, optAllow, optDeny, optValueType,
    filteringFields, filteringOne, getQueryValidationOptions, getValueType,
    protoTypeJSONValue]

/-- Claim C6 (witness): the ordering/non-shadowing theorem applied at a
concrete name and override type. -/
theorem claim6_synthetic_order_amended_witness :
    getFilteringDataAux exCfg exEnv 2
      { name := "M6",
        fields := [{ name := "s", typeName := "", type := FieldType.TYPE_STRING, repeated := false, validate := none }],
        msgOptions := some
          { validate :=
              [{ name := "s",
                 value := some { filtering := none, sorting := none, fieldSelection := none,
                                 valueType := ValueType.NUMBER, valueTypeUrl := "",
                                 enableNestedFields := false, nestedFields := [] } }],
            enableNestedFields := false, nestedFieldDepthLimit := 0 } } 2 =
      some (Except.ok
        [{ fieldName := "s", option := { valueType := ValueType.NUMBER, deny := [] } },
         { fieldName := "s", option := { valueType := ValueType.STRING, deny := [] } }]) :=
  claim6_synthetic_order_amended exCfg exEnv 1 2 "M6" "s" ValueType.NUMBER (by decide)

/-- An annotation with both allow and deny lists non-empty. -/
def exConflictAnn : QueryValidate :=
  { filtering := some { allow := [FilterOperator.EQ], deny := [FilterOperator.EQ] },
    sorting := none, fieldSelection := none,
    valueType := ValueType.DEFAULT, valueTypeUrl := "",
    enableNestedFields := false, nestedFields := [] }

/-- A message whose only field carries the conflicting annotation but
resolves to the DEFAULT category (plain nested message, nesting not
permitted). -/
def exM8 : Descriptor :=
  { name := "M8",
    fields := [{ name := "tags", typeName := ".pkg.M3", type := FieldType.TYPE_MESSAGE,
                 repeated := false, validate := some exConflictAnn }],
    msgOptions := none }

/-- Claim C8 (counterexample): the annotation of "tags" has both lists
non-empty, yet resolving M8 raises no error for any capability: the
field's category resolves to DEFAULT, so the allow/deny resolver is
never consulted; filtering records a fully-denied entry and the other
resolvers succeed as well. -/
theorem claim8_conflict_counterexample :
    optAllow (some exConflictAnn) ≠ [] ∧
    optDeny (some exConflictAnn) ≠ [] ∧
    getFilteringData exCfg exEnv exM8 =
      some (Except.ok
        [{ fieldName := "tags",
           option := { valueType := ValueType.DEFAULT, deny := [FilterOperator.ALL] } }]) ∧
    getSortingData exCfg exEnv exM8 = some (Except.ok []) ∧
    getFieldSelectionData exCfg exEnv exM8 = some (Except.ok ["tags.code", "tags"]) :=
  ⟨by decide, by decide, rfl, rfl, rfl⟩

/-- A field whose annotation sets both lists and whose category is
concrete makes the filtering resolver abort with the conflict error. -/
theorem filteringOne_conflict_error (cfg : Config) (env : Env)
    (recur : Descriptor → Nat → Option (Except String (List FieldValidate)))
    (msg : Descriptor) (mn : Nat) (f : FieldDescriptorProto)
    (hurl : optValueTypeUrl (getQueryValidationOptions f) = "")
    (hvt : optValueType (getQueryValidationOptions f) ≠ ValueType.DEFAULT)
    (ha : 0 < (optAllow (getQueryValidationOptions f)).length)
    (hd : 0 < (optDeny (getQueryValidationOptions f)).length) :
    filteringOne cfg env recur msg mn f =
      some (Except.error ((if f.typeName = protoTypeJSONValue then f.name ++ ".*" else f.name) ++
        ": both allow and deny options are not allowed")) := by
  have hsf := syntheticField_of_url_empty env f.name (getQueryValidationOptions f) hurl
  simp only [filteringOne, hsf, Option.getD_none]
  simp [hvt, getDenyRules, ha, hd]

/-- Claim C8 (amended): a field with both allow and deny lists set makes
resolution raise the conflict error exactly when the allow/deny resolver
is reached, i.e. when the field resolves to a concrete category (via the
annotation override or via the type classifier); the error propagates so
the whole message resolves to an error with no partial output.  A field
whose category stays DEFAULT bypasses the resolver: filtering emits a
fully-denied entry and no error is raised. -/
theorem claim8_conflict_amended (cfg : Config) (env : Env)
    (recF : Descriptor → Nat → Option (Except String (List FieldValidate)))
    (msg : Descriptor) (mn k : Nat) (f : FieldDescriptorProto) (rest : List FieldDescriptorProto)
    (hurl : optValueTypeUrl (getQueryValidationOptions f) = "")
    (ha : 0 < (optAllow (getQueryValidationOptions f)).length)
    (hd : 0 < (optDeny (getQueryValidationOptions f)).length) :
    (optValueType (getQueryValidationOptions f) ≠ ValueType.DEFAULT →
      filteringOne cfg env recF msg mn f =
        some (Except.error ((if f.typeName = protoTypeJSONValue then f.name ++ ".*" else f.name) ++
          ": both allow and deny options are not allowed"))) ∧
    (optValueType (getQueryValidationOptions f) = ValueType.DEFAULT →
      f.repeated = false → getValueType f ≠ ValueType.DEFAULT →
      filteringOne cfg env recF msg mn f =
        some (Except.error ((if f.typeName = protoTypeJSONValue then f.name ++ ".*" else f.name) ++
          ": both allow and deny options are not allowed"))) ∧
    (∀ err, msg.msgOptions = none → msg.fields = f :: rest →
      filteringOne cfg env (fun d m => getFilteringDataAux cfg env k d m) msg mn f =
        some (Except.error err) →
      getFilteringDataAux cfg env (k + 1) msg mn = some (Except.error err)) ∧
    (optValueType (getQueryValidationOptions f) = ValueType.DEFAULT →
      f.repeated = false → f.type = FieldType.TYPE_MESSAGE →
      getValueType f = ValueType.DEFAULT → mn ≠ 1 →
      allowNested cfg msg (getQueryValidationOptions f) = false →
      filteringOne cfg env recF msg mn f =
        some (Except.ok
          [{ fieldName := f.name,
             option := { valueType := ValueType.DEFAULT, deny := [FilterOperator.ALL] } }])) := by
  have hsf := syntheticField_of_url_empty env f.name (getQueryValidationOptions f) hurl
  refine ⟨?_, ?_, ?_, ?_⟩
  · intro hvt
    exact filteringOne_conflict_error cfg env recF msg mn f hurl hvt ha hd
  · intro hvt hrep hcls
    simp only [filteringOne, hsf, Option.getD_none]
    simp [hvt, hrep, hcls, getDenyRules, ha, hd]
  · intro err hmo hmf h1
    simp [getFilteringDataAux, getMessageQueryValidationOptions, hmo, filteringSynthPass,
      hmf, filteringFields, h1]
  · intro hvt hrep hty hcls hmn hnest
    have hjson : f.typeName ≠ protoTypeJSONValue := typeName_ne_json_of_default f hty hcls
    simp [filteringOne, hsf, hvt, hrep, hcls, hmn, hty, hnest, hjson]

/-- A plain string field carrying the conflicting annotation. -/
def exConflictStr : FieldDescriptorProto :=
  { name := "state", typeName := "", type := FieldType.TYPE_STRING,
    repeated := false, validate := some exConflictAnn }

/-- A message whose only field is the conflicting string field. -/
def exM8b : Descriptor := { name := "M8b", fields := [exConflictStr], msgOptions := none }

/-- Claim C8 (witness): on the concrete string field the conflict error
is raised and aborts the whole message, while the DEFAULT-category
conflict field of exM8 resolves without error. -/
theorem claim8_conflict_amended_witness :
    getFilteringDataAux exCfg exEnv 2 exM8b 2 =
      some (Except.error "state: both allow and deny options are not allowed") ∧
    filteringOne exCfg exEnv (fun d m => getFilteringDataAux exCfg exEnv 1 d m) exM8 2
      { name := "tags", typeName := ".pkg.M3", type := FieldType.TYPE_MESSAGE,
        repeated := false, validate := some exConflictAnn } =
      some (Except.ok
        [{ fieldName := "tags",
           option := { valueType := ValueType.DEFAULT, deny := [FilterOperator.ALL] } }]) := by
  have h := claim8_conflict_amended exCfg exEnv
    (fun d m => getFilteringDataAux exCfg exEnv 1 d m) exM8b 2 1 exConflictStr []
    rfl (by decide) (by decide)
  have h2 := claim8_conflict_amended exCfg exEnv
    (fun d m => getFilteringDataAux exCfg exEnv 1 d m) exM8 2 1
    { name := "tags", typeName := ".pkg.M3", type := FieldType.TYPE_MESSAGE,
      repeated := false, validate := some exConflictAnn } []
    rfl (by decide) (by decide)
  constructor
  · exact h.2.2.1 "state: both allow and deny options are not allowed" rfl rfl
      (h.2.1 rfl rfl (by decide))
  · exact h2.2.2.2 rfl rfl rfl rfl (by decide) rfl

/-- Claim C2: for an annotation with exactly one of the two lists
non-empty whose listed operators all pass validation (eligible for the
category or the literal ALL): an allow list resolves to the category's
eligibility table minus the allow list, collapsing to the empty deny set
when ALL occurs anywhere in it; a deny list resolves verbatim, except
that ALL anywhere in it collapses the result to [ALL]. -/
theorem claim2_allow_deny_resolution (n : String) (q : QueryValidate) (vt : ValueType) :
    ((optDeny (some q) = [] →
      0 < (optAllow (some q)).length →
      ((optAllow (some q)).all
        (fun item => (supportedOpsFor vt).contains item || item == FilterOperator.ALL)) = true →
      (((optAllow (some q)).contains FilterOperator.ALL = false →
        getDenyRules n (some q) vt =
          Except.ok ((supportedOpsFor vt).filter (fun op => !((optAllow (some q)).contains op)))) ∧
       ((optAllow (some q)).contains FilterOperator.ALL = true →
        getDenyRules n (some q) vt = Except.ok []))) ∧
     (optAllow (some q) = [] →
      0 < (optDeny (some q)).length →
      ((optDeny (some q)).all
        (fun item => (supportedOpsFor vt).contains item || item == FilterOperator.ALL)) = true →
      (((optDeny (some q)).contains FilterOperator.ALL = true →
        getDenyRules n (some q) vt = Except.ok [FilterOperator.ALL]) ∧
       ((optDeny (some q)).contains FilterOperator.ALL = false →
        getDenyRules n (some q) vt = Except.ok (optDeny (some q)))))) := by
  constructor
  · intro h1 h2 h3
    have h2x : ¬((optAllow (some q)).length = 0) := by omega
    simp only [List.all_eq_true, Bool.or_eq_true, List.elem_eq_mem,
      decide_eq_true_eq, beq_iff_eq] at h3
    constructor
    · intro h4
      simp only [List.elem_eq_mem, decide_eq_false_iff_not] at h4
      simp [getDenyRules, h1, h2, h2x, h3, h4]
      intro x hx hns
      rcases h3 x hx with h5 | h5
      · exact absurd h5 hns
      · exact h5
    · intro h4
      simp only [List.elem_eq_mem, decide_eq_true_eq] at h4
      simp [getDenyRules, h1, h2, h2x, h3, h4]
      intro x hx hns
      rcases h3 x hx with h5 | h5
      · exact absurd h5 hns
      · exact h5
  · intro h1 h2 h3
    have h2x : ¬((optDeny (some q)).length = 0) := by omega
    simp only [List.all_eq_true, Bool.or_eq_true, List.elem_eq_mem,
      decide_eq_true_eq, beq_iff_eq] at h3
    constructor
    · intro h4
      simp only [List.elem_eq_mem, decide_eq_true_eq] at h4
      simp [getDenyRules, h1, h2, h2x, h3, h4]
      intro x hx hns
      rcases h3 x hx with h5 | h5
      · exact absurd h5 hns
      · exact h5
    · intro h4
      simp only [List.elem_eq_mem, decide_eq_false_iff_not] at h4
      simp [getDenyRules, h1, h2, h2x, h3, h4]
      intro x hx hns
      rcases h3 x hx with h5 | h5
      · exact absurd h5 hns
      · exact h5

/-- An annotation allowing only EQ. -/
def exAllowEQ : QueryValidate :=
  { filtering := some { allow := [FilterOperator.EQ], deny := [] },
    sorting := none, fieldSelection := none,
    valueType := ValueType.DEFAULT, valueTypeUrl := "",
    enableNestedFields := false, nestedFields := [] }

/-- Claim C2 (witness): allow=[EQ] on a STRING field resolves to the
deny set MATCH,GT,GE,LT,LE,IN,IEQ. -/
theorem claim2_allow_deny_resolution_witness :
    getDenyRules "status" (some exAllowEQ) ValueType.STRING =
      Except.ok [FilterOperator.MATCH, FilterOperator.GT, FilterOperator.GE,
        FilterOperator.LT, FilterOperator.LE, FilterOperator.IN, FilterOperator.IEQ] := by
  have h := ((claim2_allow_deny_resolution "status" exAllowEQ ValueType.STRING).1
    rfl (by decide) (by decide)).1 (by decide)
  rw [h]
  rfl

/-- The nesting depth of any message is at least 1 under an
Init-produced configuration. -/
theorem getNestDepth_pos (dp : Option (Option Int)) (b : Bool) (msg : Descriptor) :
    1 ≤ getNestDepth (initConfig dp b) msg := by
  have hpos : 1 ≤ initMaxNesting dp := by
    simp only [initMaxNesting]
    split
    · exact Nat.le_refl 1
    · rename_i hlt
      push_neg at hlt
      omega
  unfold getNestDepth
  cases ho : getMessageOptions msg with
  | none => simpa [initConfig] using hpos
  | some opts =>
    by_cases hz : opts.nestedFieldDepthLimit = 0
    · simpa [hz, initConfig] using hpos
    · simp only [hz, if_true, reduceIte, ne_eq, not_false_eq_true]
      omega

/-- Claim C4: the depth budget of a top-level resolve call is the
containing message's override when present, else the configured
process-wide value, which defaults to 2 when the parameter is absent;
the budget is always at least 1. -/
theorem claim4_nest_depth (dp : Option (Option Int)) (b : Bool) (msg : Descriptor) :
    (∀ opts, msg.msgOptions = some opts → opts.nestedFieldDepthLimit ≠ 0 →
      getNestDepth (initConfig dp b) msg = opts.nestedFieldDepthLimit) ∧
    (msg.msgOptions = none → getNestDepth (initConfig dp b) msg = initMaxNesting dp) ∧
    (∀ opts, msg.msgOptions = some opts → opts.nestedFieldDepthLimit = 0 →
      getNestDepth (initConfig dp b) msg = initMaxNesting dp) ∧
    (dp = none → initMaxNesting dp = 2) ∧
    1 ≤ getNestDepth (initConfig dp b) msg := by
  have hpos : 1 ≤ initMaxNesting dp := by
    simp only [initMaxNesting]
    split
    · exact Nat.le_refl 1
    · rename_i hlt
      push_neg at hlt
      omega
  refine ⟨?_, ?_, ?_, ?_, ?_⟩
  · intro opts ho hne
    simp [getNestDepth, getMessageOptions, ho, hne]
  · intro ho
    simp [getNestDepth, getMessageOptions, ho, initConfig]
  · intro opts ho hz
    simp [getNestDepth, getMessageOptions, ho, hz, initConfig]
  · intro hdp
    simp [hdp, initMaxNesting]
  · exact getNestDepth_pos dp b msg

/-- A message with a nesting-depth override of 5. -/
def exOv : Descriptor :=
  { name := "Ov", fields := [],
    msgOptions := some { validate := [], enableNestedFields := false, nestedFieldDepthLimit := 5 } }

/-- Claim C4 (witness): with no parameter the default budget is 2, the
override of exOv wins and the budget stays at least 1. -/
theorem claim4_nest_depth_witness :
    getNestDepth (initConfig none false) exOv = 5 ∧
    getNestDepth (initConfig none false) exM2 = initMaxNesting none ∧
    initMaxNesting none = 2 ∧
    1 ≤ getNestDepth (initConfig none false) exOv := by
  have h := claim4_nest_depth none false exOv
  have h2 := claim4_nest_depth none false exM2
  exact ⟨h.1 _ rfl (by decide), h2.2.1 rfl, h.2.2.2.1 rfl, h.2.2.2.2⟩

/-- A response schema without a message-kind result/results field yields
no result message. -/
theorem resultMessageScan_none (env : Env) (fs : List FieldDescriptorProto)
    (h : ∀ f ∈ fs, (f.name = "result" ∨ f.name = "results") → f.type ≠ FieldType.TYPE_MESSAGE) :
    resultMessageScan env fs = Except.ok none := by
  induction fs with
  | nil => rfl
  | cons f fs ih =>
    have hf := h f (List.mem_cons_self f fs)
    have hcond : ¬((f.name = "result" ∨ f.name = "results") ∧ f.type = FieldType.TYPE_MESSAGE) := by
      rintro ⟨hna, hnb⟩
      exact hf hna hnb
    rw [resultMessageScan, if_neg hcond]
    exact ih (fun g hg => h g (List.mem_cons_of_mem f hg))

/-- Claim C7: an endpoint whose response schema has no message-kind field
named "result" or "results" receives no entry in any of the three policy
tables, whatever capability markers its request declares. -/
theorem claim7_no_result_no_entry (cfg : Config) (env : Env) (m : MethodDescriptorProto)
    (input output : Descriptor)
    (hin : envLookup env m.inputType = some input)
    (hout : envLookup env m.outputType = some output)
    (hno : ∀ f ∈ output.fields, (f.name = "result" ∨ f.name = "results") →
      f.type ≠ FieldType.TYPE_MESSAGE) :
    filteringTableEntry cfg env m = some (Except.ok none) ∧
    sortingTableEntry cfg env m = some (Except.ok none) ∧
    fieldSelectionTableEntry cfg env m = some (Except.ok none) := by
  have hres : getResultMessage env output = Except.ok none :=
    resultMessageScan_none env output.fields hno
  refine ⟨?_, ?_, ?_⟩
  · simp [filteringTableEntry, hin, hout, getResultMessage] at *
    simp [hres]
  · simp [sortingTableEntry, hin, hout, getResultMessage] at *
    simp [hres]
  · simp [fieldSelectionTableEntry, hin, hout, getResultMessage] at *
    simp [hres]

/-- A request schema declaring all three capability markers. -/
def exReq : Descriptor :=
  { name := "Req",
    fields :=
      [{ name := "f1", typeName := filteringMarker, type := FieldType.TYPE_MESSAGE, repeated := false, validate := none },
       { name := "f2", typeName := sortingMarker, type := FieldType.TYPE_MESSAGE, repeated := false, validate := none },
       { name := "f3", typeName := fieldSelectionMarker, type := FieldType.TYPE_MESSAGE, repeated := false, validate := none }],
    msgOptions := none }

/-- A response schema with a message field named "payload" and a string
field named "result": no message-kind result/results field. -/
def exResp : Descriptor :=
  { name := "Resp",
    fields :=
      [{ name := "payload", typeName := ".pkg.M3", type := FieldType.TYPE_MESSAGE, repeated := false, validate := none },
       { name := "result", typeName := "", type := FieldType.TYPE_STRING, repeated := false, validate := none }],
    msgOptions := none }

/-- A schema repository for the endpoint example. -/
def exEnv7 : Env := [("Req", exReq), ("Resp", exResp), (".pkg.M3", exM3)]

/-- An endpoint using exReq and exResp. -/
def exMethod : MethodDescriptorProto := { name := "List", inputType := "Req", outputType := "Resp" }

/-- Claim C7 (witness): the request declares all three markers, yet the
endpoint gets no entry in any table because the response lacks a
message-kind result/results field. -/
theorem claim7_no_result_no_entry_witness :
    hasFiltering exReq = true ∧ hasSorting exReq = true ∧ hasFieldSelection exReq = true ∧
    filteringTableEntry exCfg exEnv7 exMethod = some (Except.ok none) ∧
    sortingTableEntry exCfg exEnv7 exMethod = some (Except.ok none) ∧
    fieldSelectionTableEntry exCfg exEnv7 exMethod = some (Except.ok none) := by
  have h := claim7_no_result_no_entry exCfg exEnv7 exMethod exReq exResp rfl rfl (by decide)
  exact ⟨rfl, rfl, rfl, h.1, h.2.1, h.2.2⟩

/-! Totality of the resolvers: fuel equal to the budget suffices. -/

/-- One filtering field never exhausts the fuel when the nested calls at
the decremented budget do not. -/
theorem filteringOne_isSome (cfg : Config) (env : Env)
    (recur : Descriptor → Nat → Option (Except String (List FieldValidate)))
    (msg : Descriptor) (mn : Nat) (f : FieldDescriptorProto)
    (hrec : mn ≠ 1 → ∀ d, (recur d (mn - 1)).isSome = true) :
    (filteringOne cfg env recur msg mn f).isSome = true := by
  unfold filteringOne
  split
  · rfl
  · rename_i osf hsf
    dsimp only
    by_cases h1 : optValueType (getQueryValidationOptions (osf.getD f)) = ValueType.DEFAULT
    · simp only [h1, if_true, reduceIte, ite_true]
      by_cases h2 : (osf.getD f).repeated
      · simp [h2]
      · simp only [h2, if_false, reduceIte, ite_false, Bool.false_eq_true]
        by_cases h3 : getValueType (osf.getD f) = ValueType.DEFAULT
        · simp only [h3, if_true, reduceIte, ite_true]
          by_cases h4 : mn = 1
          · simp [h4]
          · simp only [h4, if_false, reduceIte, ite_false]
            by_cases h5 : (osf.getD f).type = FieldType.TYPE_MESSAGE ∧
                allowNested cfg msg (getQueryValidationOptions (osf.getD f))
            · simp only [h5, if_true, reduceIte, ite_true]
              cases hl : envLookup env (osf.getD f).typeName with
              | none => simp
              | some nested =>
                have hr := hrec h4 nested
                cases hrr : recur nested (mn - 1) with
                | none => rw [hrr] at hr; simp at hr
                | some r => cases r <;> simp [hrr]
            · simp [h5]
        · simp only [h3, if_false, reduceIte, ite_false]
          cases getDenyRules (if (osf.getD f).typeName = protoTypeJSONValue then
              (osf.getD f).name ++ ".*" else (osf.getD f).name)
              (getQueryValidationOptions (osf.getD f)) (getValueType (osf.getD f)) <;> rfl
    · simp only [h1, if_false, reduceIte, ite_false]
      cases getDenyRules (if (osf.getD f).typeName = protoTypeJSONValue then
          (osf.getD f).name ++ ".*" else (osf.getD f).name)
          (getQueryValidationOptions (osf.getD f))
          (optValueType (getQueryValidationOptions (osf.getD f))) <;> rfl

/-- One sorting field never exhausts the fuel when the nested calls at
the decremented budget do not. -/
theorem sortingOne_isSome (cfg : Config) (env : Env)
    (recur : Descriptor → Nat → Option (Except String (List String)))
    (msg : Descriptor) (mn : Nat) (f : FieldDescriptorProto)
    (hrec : mn ≠ 1 → ∀ d, (recur d (mn - 1)).isSome = true) :
    (sortingOne cfg env recur msg mn f).isSome = true := by
  unfold sortingOne
  split
  · rfl
  · rename_i osf hsf
    dsimp only
    by_cases h0 : optSortingDisable (getQueryValidationOptions (osf.getD f))
    · simp [h0]
    · simp only [h0, if_false, reduceIte, ite_false, Bool.false_eq_true]
      by_cases h1 : optValueType (getQueryValidationOptions (osf.getD f)) = ValueType.DEFAULT
      · simp only [h1, if_true, reduceIte, ite_true]
        by_cases h2 : (osf.getD f).repeated
        · simp [h2]
        · simp only [h2, if_false, reduceIte, ite_false, Bool.false_eq_true]
          by_cases h3 : getValueType (osf.getD f) = ValueType.DEFAULT
          · simp only [h3, if_true, reduceIte, ite_true]
            by_cases h4 : mn = 1
            · simp [h4]
            · simp only [h4, if_false, reduceIte, ite_false]
              by_cases h5 : (osf.getD f).type = FieldType.TYPE_MESSAGE ∧
                  allowNested cfg msg (getQueryValidationOptions (osf.getD f))
              · simp only [h5, if_true, reduceIte, ite_true]
                cases hl : envLookup env (osf.getD f).typeName with
                | none => simp
                | some nested =>
                  have hr := hrec h4 nested
                  cases hrr : recur nested (mn - 1) with
                  | none => rw [hrr] at hr; simp at hr
                  | some r => cases r <;> simp [hrr]
              · simp [h5]
          · simp [h3]
      · simp [h1]

/-- One field-selection field never exhausts the fuel when the nested
calls at the decremented budget do not. -/
theorem fieldSelectionOne_isSome (cfg : Config) (env : Env)
    (recur : Descriptor → Nat → Option (Except String (List String)))
    (msg : Descriptor) (mn : Nat) (f : FieldDescriptorProto)
    (hrec : mn ≠ 1 → ∀ d, (recur d (mn - 1)).isSome = true) :
    (fieldSelectionOne cfg env recur msg mn f).isSome = true := by
  unfold fieldSelectionOne
  split
  · rfl
  · rename_i osf hsf
    dsimp only
    by_cases h0 : optFieldSelectionDisable (getQueryValidationOptions (osf.getD f))
    · simp [h0]
    · simp only [h0, if_false, reduceIte, ite_false, Bool.false_eq_true]
      by_cases h1 : optValueType (getQueryValidationOptions (osf.getD f)) = ValueType.DEFAULT ∧
          (osf.getD f).type = FieldType.TYPE_MESSAGE ∧ fsWrapperType (osf.getD f).typeName = false
      · simp only [h1, if_true, reduceIte, ite_true]
        by_cases h4 : mn = 1
        · simp [h4]
        · simp only [h4, if_false, reduceIte, ite_false]
          cases hl : envLookup env (osf.getD f).typeName with
          | none => simp
          | some nested =>
            have hr := hrec h4 nested
            cases hrr : recur nested (mn - 1) with
            | none => rw [hrr] at hr; simp at hr
            | some r => cases r <;> simp [hrr]
      · simp [h1]

/-- The filtering field loop never exhausts the fuel when the nested
calls do not. -/
theorem filteringFields_isSome (cfg : Config) (env : Env)
    (recur : Descriptor → Nat → Option (Except String (List FieldValidate)))
    (msg : Descriptor) (mn : Nat)
    (hrec : mn ≠ 1 → ∀ d, (recur d (mn - 1)).isSome = true) :
    ∀ fs, (filteringFields cfg env recur msg mn fs).isSome = true := by
  intro fs
  induction fs with
  | nil => rfl
  | cons f fs ih =>
    have h1 := filteringOne_isSome cfg env recur msg mn f hrec
    unfold filteringFields
    cases ho : filteringOne cfg env recur msg mn f with
    | none => rw [ho] at h1; simp at h1
    | some r =>
      cases r with
      | error e => rfl
      | ok c =>
        cases hrest : filteringFields cfg env recur msg mn fs with
        | none => rw [hrest] at ih; simp at ih
        | some r2 => cases r2 <;> rfl

/-- The sorting field loop never exhausts the fuel when the nested calls
do not. -/
theorem sortingFields_isSome (cfg : Config) (env : Env)
    (recur : Descriptor → Nat → Option (Except String (List String)))
    (msg : Descriptor) (mn : Nat)
    (hrec : mn ≠ 1 → ∀ d, (recur d (mn - 1)).isSome = true) :
    ∀ fs, (sortingFields cfg env recur msg mn fs).isSome = true := by
  intro fs
  induction fs with
  | nil => rfl
  | cons f fs ih =>
    have h1 := sortingOne_isSome cfg env recur msg mn f hrec
    unfold sortingFields
    cases ho : sortingOne cfg env recur msg mn f with
    | none => rw [ho] at h1; simp at h1
    | some r =>
      cases r with
      | error e => rfl
      | ok c =>
        cases hrest : sortingFields cfg env recur msg mn fs with
        | none => rw [hrest] at ih; simp at ih
        | some r2 => cases r2 <;> rfl

/-- The field-selection field loop never exhausts the fuel when the
nested calls do not. -/
theorem fieldSelectionFields_isSome (cfg : Config) (env : Env)
    (recur : Descriptor → Nat → Option (Except String (List String)))
    (msg : Descriptor) (mn : Nat)
    (hrec : mn ≠ 1 → ∀ d, (recur d (mn - 1)).isSome = true) :
    ∀ fs, (fieldSelectionFields cfg env recur msg mn fs).isSome = true := by
  intro fs
  induction fs with
  | nil => rfl
  | cons f fs ih =>
    have h1 := fieldSelectionOne_isSome cfg env recur msg mn f hrec
    unfold fieldSelectionFields
    cases ho : fieldSelectionOne cfg env recur msg mn f with
    | none => rw [ho] at h1; simp at h1
    | some r =>
      cases r with
      | error e => rfl
      | ok c =>
        cases hrest : fieldSelectionFields cfg env recur msg mn fs with
        | none => rw [hrest] at ih; simp at ih
        | some r2 => cases r2 <;> rfl

/-- Fuel at least the budget suffices for the filtering resolver, for
every schema repository (cyclic ones included) and budget of at least
one. -/
theorem getFilteringDataAux_isSome (cfg : Config) (env : Env) :
    ∀ fuel mn msg, 1 ≤ mn → mn ≤ fuel →
      (getFilteringDataAux cfg env fuel msg mn).isSome = true := by
  intro fuel
  induction fuel with
  | zero => intro mn msg hle hf; omega
  | succ k ih =>
    intro mn msg hle hf
    unfold getFilteringDataAux
    cases hg : getMessageQueryValidationOptions msg with
    | error e => rfl
    | ok entries =>
      cases hs : filteringSynthPass env entries with
      | error e => simp [hs]
      | ok p =>
        have hfld := filteringFields_isSome cfg env
          (fun d m => getFilteringDataAux cfg env k d m) msg mn
          (fun hmn d => ih (mn - 1) d (by omega) (by omega)) (p.1 ++ msg.fields)
        cases hf2 : filteringFields cfg env
            (fun d m => getFilteringDataAux cfg env k d m) msg mn (p.1 ++ msg.fields) with
        | none => rw [hf2] at hfld; simp at hfld
        | some r => cases r <;> simp [hs, hf2]

/-- Fuel at least the budget suffices for the sorting resolver. -/
theorem getSortingDataAux_isSome (cfg : Config) (env : Env) :
    ∀ fuel mn msg, 1 ≤ mn → mn ≤ fuel →
      (getSortingDataAux cfg env fuel msg mn).isSome = true := by
  intro fuel
  induction fuel with
  | zero => intro mn msg hle hf; omega
  | succ k ih =>
    intro mn msg hle hf
    unfold getSortingDataAux
    cases hg : getMessageQueryValidationOptions msg with
    | error e => rfl
    | ok entries =>
      cases hs : sortingSynthPass env entries with
      | error e => simp [hs]
      | ok p =>
        have hfld := sortingFields_isSome cfg env
          (fun d m => getSortingDataAux cfg env k d m) msg mn
          (fun hmn d => ih (mn - 1) d (by omega) (by omega)) (p.1 ++ msg.fields)
        cases hf2 : sortingFields cfg env
            (fun d m => getSortingDataAux cfg env k d m) msg mn (p.1 ++ msg.fields) with
        | none => rw [hf2] at hfld; simp at hfld
        | some r => cases r <;> simp [hs, hf2]

/-- Fuel at least the budget suffices for the field-selection resolver. -/
theorem getFieldSelectionDataAux_isSome (cfg : Config) (env : Env) :
    ∀ fuel mn msg, 1 ≤ mn → mn ≤ fuel →
      (getFieldSelectionDataAux cfg env fuel msg mn).isSome = true := by
  intro fuel
  induction fuel with
  | zero => intro mn msg hle hf; omega
  | succ k ih =>
    intro mn msg hle hf
    unfold getFieldSelectionDataAux
    cases hg : getMessageQueryValidationOptions msg with
    | error e => rfl
    | ok entries =>
      cases hs : fieldSelectionSynthPass env entries with
      | error e => simp [hs]
      | ok p =>
        have hfld := fieldSelectionFields_isSome cfg env
          (fun d m => getFieldSelectionDataAux cfg env k d m) msg mn
          (fun hmn d => ih (mn - 1) d (by omega) (by omega)) (p.1 ++ msg.fields)
        cases hf2 : fieldSelectionFields cfg env
            (fun d m => getFieldSelectionDataAux cfg env k d m) msg mn (p.1 ++ msg.fields) with
        | none => rw [hf2] at hfld; simp at hfld
        | some r => cases r <;> simp [hs, hf2]

/-- Claim C3: for every configuration the implementation can produce
(any parameter, after Init's clamp) and for every schema repository —
including repositories with reference cycles, since env is arbitrary and
messages refer to each other by name — every top-level resolve call
terminates within recursion depth equal to the depth budget: the fuelled
model with fuel equal to the budget is never exhausted, for all three
capability kinds.  Only the decreasing budget bounds the recursion; no
cycle detection exists anywhere in the resolvers. -/
theorem claim3_resolver_terminates (dp : Option (Option Int)) (b : Bool)
    (env : Env) (msg : Descriptor) :
    (getFilteringData (initConfig dp b) env msg).isSome = true ∧
    (getSortingData (initConfig dp b) env msg).isSome = true ∧
    (getFieldSelectionData (initConfig dp b) env msg).isSome = true := by
  have hd : 1 ≤ getNestDepth (initConfig dp b) msg := getNestDepth_pos dp b msg
  exact ⟨getFilteringDataAux_isSome (initConfig dp b) env _ _ msg hd (Nat.le_refl _),
    getSortingDataAux_isSome (initConfig dp b) env _ _ msg hd (Nat.le_refl _),
    getFieldSelectionDataAux_isSome (initConfig dp b) env _ _ msg hd (Nat.le_refl _)⟩

/-! Independence of the resolved output from the contents of the
allowed-nested-field lists.  The resolvers read those lists only through
their non-emptiness, so normalizing every non-empty list to a canonical
one leaves every result unchanged. -/

/-- Normalize an annotation: replace a non-empty allowed-nested-field
list by the canonical one-element list. -/
def normQV (q : QueryValidate) : QueryValidate :=
  { q with nestedFields := if q.nestedFields = [] then [] else ["*"] }

/-- Normalization lifted to optional annotations. -/
def normOptQV : Option QueryValidate → Option QueryValidate := Option.map normQV

/-- Normalization lifted to fields. -/
def normField (f : FieldDescriptorProto) : FieldDescriptorProto :=
  { f with validate := normOptQV f.validate }

/-- Normalization lifted to synthetic entries. -/
def normEntry (e : QueryValidateEntry) : QueryValidateEntry :=
  { e with value := normOptQV e.value }

/-- Normalization lifted to message options. -/
def normMsgOpts (o : MessageQueryValidate) : MessageQueryValidate :=
  { o with validate := o.validate.map normEntry }

/-- Normalization lifted to descriptors. -/
def normDesc (d : Descriptor) : Descriptor :=
  { d with fields := d.fields.map normField, msgOptions := d.msgOptions.map normMsgOpts }

/-- Normalization lifted to the schema repository. -/
def normEnv (env : Env) : Env := env.map (fun p => (p.1, normDesc p.2))

theorem optAllow_norm (o : Option QueryValidate) : optAllow (normOptQV o) = optAllow o := by
  cases o <;> rfl

theorem optDeny_norm (o : Option QueryValidate) : optDeny (normOptQV o) = optDeny o := by
  cases o <;> rfl

theorem optSortingDisable_norm (o : Option QueryValidate) :
    optSortingDisable (normOptQV o) = optSortingDisable o := by
  cases o <;> rfl

theorem optFieldSelectionDisable_norm (o : Option QueryValidate) :
    optFieldSelectionDisable (normOptQV o) = optFieldSelectionDisable o := by
  cases o <;> rfl

theorem optValueType_norm (o : Option QueryValidate) :
    optValueType (normOptQV o) = optValueType o := by
  cases o <;> rfl

theorem optValueTypeUrl_norm (o : Option QueryValidate) :
    optValueTypeUrl (normOptQV o) = optValueTypeUrl o := by
  cases o <;> rfl

theorem optEnableNestedFields_norm (o : Option QueryValidate) :
    optEnableNestedFields (normOptQV o) = optEnableNestedFields o := by
  cases o <;> rfl

theorem optNestedFields_pos_norm (o : Option QueryValidate) :
    decide (0 < (optNestedFields (normOptQV o)).length) =
      decide (0 < (optNestedFields o).length) := by
  cases o with
  | none => rfl
  | some q =>
    by_cases hq : q.nestedFields = [] <;>
      simp [normOptQV, normQV, optNestedFields, hq, List.length_pos]

theorem getQueryValidationOptions_norm (f : FieldDescriptorProto) :
    getQueryValidationOptions (normField f) = normOptQV (getQueryValidationOptions f) := by
  cases hv : f.validate with
  | none => simp [getQueryValidationOptions, normField, normOptQV, hv]
  | some opts =>
    simp only [getQueryValidationOptions, normField, normOptQV, hv, Option.map_some]
    by_cases hu : opts.valueTypeUrl = "" <;> simp [normQV, hu]

theorem getValueType_norm (f : FieldDescriptorProto) :
    getValueType (normField f) = getValueType f := rfl

theorem envLookup_norm (env : Env) (n : String) :
    envLookup (normEnv env) n = (envLookup env n).map normDesc := by
  induction env with
  | nil => rfl
  | cons p rest ih =>
    by_cases hk : p.1 = n
    · simp [normEnv, envLookup, hk]
    · simp only [normEnv, List.map, envLookup, hk, if_false, reduceIte, ite_false]
      simpa [normEnv] using ih

theorem syntheticField_norm (env : Env) (n : String) (o : Option QueryValidate) :
    syntheticField (normEnv env) n (normOptQV o) =
      Except.map (Option.map normField) (syntheticField env n o) := by
  cases o with
  | none => rfl
  | some q =>
    by_cases hu : q.valueTypeUrl = ""
    · simp [syntheticField, normOptQV, normQV, hu, Except.map]
    · simp only [syntheticField, normOptQV, normQV, Option.map, hu, if_false, reduceIte,
        ite_false]
      rw [envLookup_norm]
      cases hl : envLookup env q.valueTypeUrl with
      | none => rfl
      | some d => simp [Except.map, normField, normOptQV, normQV]

theorem getDenyRules_norm (n : String) (o : Option QueryValidate) (vt : ValueType) :
    getDenyRules n (normOptQV o) vt = getDenyRules n o vt := by
  simp only [getDenyRules, optAllow_norm, optDeny_norm]

theorem msgOptEnableNestedFields_norm (mo : Option MessageQueryValidate) :
    msgOptEnableNestedFields (mo.map normMsgOpts) = msgOptEnableNestedFields mo := by
  cases mo <;> rfl

theorem allowNested_norm (cfg : Config) (msg : Descriptor) (o : Option QueryValidate) :
    allowNested cfg (normDesc msg) (normOptQV o) = allowNested cfg msg o := by
  unfold allowNested
  have h1 : getMessageOptions (normDesc msg) = (getMessageOptions msg).map normMsgOpts := rfl
  rw [h1, msgOptEnableNestedFields_norm, optEnableNestedFields_norm, optNestedFields_pos_norm]

theorem gMQVOEntries_norm (mName : String) (es : List QueryValidateEntry) :
    gMQVOEntries mName (es.map normEntry) =
      Except.map (List.map normEntry) (gMQVOEntries mName es) := by
  induction es with
  | nil => rfl
  | cons e es ih =>
    simp only [List.map, gMQVOEntries]
    by_cases hn : e.name = ""
    · simp [normEntry, hn, Except.map]
    · simp only [normEntry, hn, if_false, reduceIte, ite_false]
      cases hv : e.value with
      | none => simp [normOptQV, Except.map]
      | some o =>
        simp only [normOptQV, Option.map]
        rw [ih]
        cases hrec : gMQVOEntries mName es with
        | error err => rfl
        | ok rest =>
          by_cases hnf : o.nestedFields = [] <;>
            simp [Except.map, normEntry, normOptQV, normQV, hnf]

theorem getMessageQueryValidationOptions_norm (msg : Descriptor) :
    getMessageQueryValidationOptions (normDesc msg) =
      Except.map (List.map normEntry) (getMessageQueryValidationOptions msg) := by
  unfold getMessageQueryValidationOptions
  cases hm : msg.msgOptions with
  | none =>
    have h1 : (normDesc msg).msgOptions = none := by simp [normDesc, hm]
    rw [h1]
    rfl
  | some opts =>
    have h1 : (normDesc msg).msgOptions = some (normMsgOpts opts) := by
      simp [normDesc, hm]
    have h2 : (normDesc msg).name = msg.name := rfl
    rw [h1, h2]
    exact gMQVOEntries_norm msg.name opts.validate

theorem filteringSynthPass_norm (env : Env) (es : List QueryValidateEntry) :
    filteringSynthPass (normEnv env) (es.map normEntry) =
      Except.map (fun p => (p.1.map normField, p.2)) (filteringSynthPass env es) := by
  induction es with
  | nil => rfl
  | cons e es ih =>
    simp only [List.map, filteringSynthPass]
    have hname : (normEntry e).name = e.name := rfl
    have hval : (normEntry e).value = normOptQV e.value := rfl
    rw [hname, hval, syntheticField_norm]
    cases hsf : syntheticField env e.name e.value with
    | error err => rfl
    | ok osf =>
      cases osf with
      | some f =>
        simp only [Except.map, Option.map]
        rw [ih]
        cases hrec : filteringSynthPass env es with
        | error err => rfl
        | ok p => rfl
      | none =>
        simp only [Except.map, Option.map]
        rw [optValueType_norm, getDenyRules_norm]
        cases hdr : getDenyRules e.name e.value (optValueType e.value) with
        | error err => rfl
        | ok deny =>
          rw [ih]
          cases hrec : filteringSynthPass env es with
          | error err => rfl
          | ok p => rfl

theorem sortingSynthPass_norm (env : Env) (es : List QueryValidateEntry) :
    sortingSynthPass (normEnv env) (es.map normEntry) =
      Except.map (fun p => (p.1.map normField, p.2)) (sortingSynthPass env es) := by
  induction es with
  | nil => rfl
  | cons e es ih =>
    simp only [List.map, sortingSynthPass]
    have hname : (normEntry e).name = e.name := rfl
    have hval : (normEntry e).value = normOptQV e.value := rfl
    rw [hname, hval, syntheticField_norm]
    cases hsf : syntheticField env e.name e.value with
    | error err => rfl
    | ok osf =>
      cases osf with
      | some f =>
        simp only [Except.map, Option.map]
        rw [ih]
        cases hrec : sortingSynthPass env es with
        | error err => rfl
        | ok p => rfl
      | none =>
        simp only [Except.map, Option.map]
        rw [ih]
        cases hrec : sortingSynthPass env es with
        | error err => rfl
        | ok p =>
          rw [optSortingDisable_norm]
          cases optSortingDisable e.value <;> rfl

theorem fieldSelectionSynthPass_norm (env : Env) (es : List QueryValidateEntry) :
    fieldSelectionSynthPass (normEnv env) (es.map normEntry) =
      Except.map (fun p => (p.1.map normField, p.2)) (fieldSelectionSynthPass env es) := by
  induction es with
  | nil => rfl
  | cons e es ih =>
    simp only [List.map, fieldSelectionSynthPass]
    have hname : (normEntry e).name = e.name := rfl
    have hval : (normEntry e).value = normOptQV e.value := rfl
    rw [hname, hval, syntheticField_norm]
    cases hsf : syntheticField env e.name e.value with
    | error err => rfl
    | ok osf =>
      cases osf with
      | some f =>
        simp only [Except.map, Option.map]
        rw [ih]
        cases hrec : fieldSelectionSynthPass env es with
        | error err => rfl
        | ok p => rfl
      | none =>
        simp only [Except.map, Option.map]
        rw [ih]
        cases hrec : fieldSelectionSynthPass env es with
        | error err => rfl
        | ok p =>
          rw [optFieldSelectionDisable_norm]
          cases optFieldSelectionDisable e.value <;> rfl

theorem normField_name (f : FieldDescriptorProto) : (normField f).name = f.name := rfl

theorem normField_typeName (f : FieldDescriptorProto) : (normField f).typeName = f.typeName := rfl

theorem normField_type (f : FieldDescriptorProto) : (normField f).type = f.type := rfl

theorem normField_repeated (f : FieldDescriptorProto) : (normField f).repeated = f.repeated := rfl

theorem filteringOne_norm (cfg : Config) (env : Env)
    (recur1 recur2 : Descriptor → Nat → Option (Except String (List FieldValidate)))
    (msg : Descriptor) (mn : Nat) (f : FieldDescriptorProto)
    (hrec : ∀ d m, recur1 (normDesc d) m = recur2 d m) :
    filteringOne cfg (normEnv env) recur1 (normDesc msg) mn (normField f) =
      filteringOne cfg env recur2 msg mn f := by
  unfold filteringOne
  rw [normField_name, getQueryValidationOptions_norm, syntheticField_norm]
  cases hsf : syntheticField env f.name (getQueryValidationOptions f) with
  | error e => rfl
  | ok osf =>
    simp only [Except.map]
    have hgd : (Option.map normField osf).getD (normField f) = normField (osf.getD f) := by
      cases osf <;> rfl
    rw [hgd]
    generalize osf.getD f = g
    simp only [getQueryValidationOptions_norm, optValueType_norm, getValueType_norm,
      normField_typeName, normField_name, normField_repeated, normField_type,
      allowNested_norm, envLookup_norm, getDenyRules_norm]
    cases hl : envLookup env g.typeName with
    | none => rfl
    | some nested =>
      simp only [Option.map, hrec]

theorem sortingOne_norm (cfg : Config) (env : Env)
    (recur1 recur2 : Descriptor → Nat → Option (Except String (List String)))
    (msg : Descriptor) (mn : Nat) (f : FieldDescriptorProto)
    (hrec : ∀ d m, recur1 (normDesc d) m = recur2 d m) :
    sortingOne cfg (normEnv env) recur1 (normDesc msg) mn (normField f) =
      sortingOne cfg env recur2 msg mn f := by
  unfold sortingOne
  rw [normField_name, getQueryValidationOptions_norm, syntheticField_norm]
  cases hsf : syntheticField env f.name (getQueryValidationOptions f) with
  | error e => rfl
  | ok osf =>
    simp only [Except.map]
    have hgd : (Option.map normField osf).getD (normField f) = normField (osf.getD f) := by
      cases osf <;> rfl
    rw [hgd]
    generalize osf.getD f = g
    simp only [getQueryValidationOptions_norm, optValueType_norm, getValueType_norm,
      normField_typeName, normField_name, normField_repeated, normField_type,
      allowNested_norm, envLookup_norm, optSortingDisable_norm]
    cases hl : envLookup env g.typeName with
    | none => rfl
    | some nested =>
      simp only [Option.map, hrec]

theorem fieldSelectionOne_norm (cfg : Config) (env : Env)
    (recur1 recur2 : Descriptor → Nat → Option (Except String (List String)))
    (msg : Descriptor) (mn : Nat) (f : FieldDescriptorProto)
    (hrec : ∀ d m, recur1 (normDesc d) m = recur2 d m) :
    fieldSelectionOne cfg (normEnv env) recur1 (normDesc msg) mn (normField f) =
      fieldSelectionOne cfg env recur2 msg mn f := by
  unfold fieldSelectionOne
  rw [normField_name, getQueryValidationOptions_norm, syntheticField_norm]
  cases hsf : syntheticField env f.name (getQueryValidationOptions f) with
  | error e => rfl
  | ok osf =>
    simp only [Except.map]
    have hgd : (Option.map normField osf).getD (normField f) = normField (osf.getD f) := by
      cases osf <;> rfl
    rw [hgd]
    generalize osf.getD f = g
    simp only [getQueryValidationOptions_norm, optValueType_norm, getValueType_norm,
      normField_typeName, normField_name, normField_repeated, normField_type,
      envLookup_norm, optFieldSelectionDisable_norm]
    cases hl : envLookup env g.typeName with
    | none => rfl
    | some nested =>
      simp only [Option.map, hrec]

theorem filteringFields_norm (cfg : Config) (env : Env)
    (recur1 recur2 : Descriptor → Nat → Option (Except String (List FieldValidate)))
    (msg : Descriptor) (mn : Nat)
    (hrec : ∀ d m, recur1 (normDesc d) m = recur2 d m) :
    ∀ fs, filteringFields cfg (normEnv env) recur1 (normDesc msg) mn (fs.map normField) =
      filteringFields cfg env recur2 msg mn fs := by
  intro fs
  induction fs with
  | nil => rfl
  | cons f fs ih =>
    simp only [List.map, filteringFields]
    rw [filteringOne_norm cfg env recur1 recur2 msg mn f hrec]
    cases ho : filteringOne cfg env recur2 msg mn f with
    | none => rfl
    | some r =>
      cases r with
      | error e => rfl
      | ok c => rw [ih]

theorem sortingFields_norm (cfg : Config) (env : Env)
    (recur1 recur2 : Descriptor → Nat → Option (Except String (List String)))
    (msg : Descriptor) (mn : Nat)
    (hrec : ∀ d m, recur1 (normDesc d) m = recur2 d m) :
    ∀ fs, sortingFields cfg (normEnv env) recur1 (normDesc msg) mn (fs.map normField) =
      sortingFields cfg env recur2 msg mn fs := by
  intro fs
  induction fs with
  | nil => rfl
  | cons f fs ih =>
    simp only [List.map, sortingFields]
    rw [sortingOne_norm cfg env recur1 recur2 msg mn f hrec]
    cases ho : sortingOne cfg env recur2 msg mn f with
    | none => rfl
    | some r =>
      cases r with
      | error e => rfl
      | ok c => rw [ih]

theorem fieldSelectionFields_norm (cfg : Config) (env : Env)
    (recur1 recur2 : Descriptor → Nat → Option (Except String (List String)))
    (msg : Descriptor) (mn : Nat)
    (hrec : ∀ d m, recur1 (normDesc d) m = recur2 d m) :
    ∀ fs, fieldSelectionFields cfg (normEnv env) recur1 (normDesc msg) mn (fs.map normField) =
      fieldSelectionFields cfg env recur2 msg mn fs := by
  intro fs
  induction fs with
  | nil => rfl
  | cons f fs ih =>
    simp only [List.map, fieldSelectionFields]
    rw [fieldSelectionOne_norm cfg env recur1 recur2 msg mn f hrec]
    cases ho : fieldSelectionOne cfg env recur2 msg mn f with
    | none => rfl
    | some r =>
      cases r with
      | error e => rfl
      | ok c => rw [ih]

theorem getFilteringDataAux_norm (cfg : Config) (env : Env) :
    ∀ fuel msg mn, getFilteringDataAux cfg (normEnv env) fuel (normDesc msg) mn =
      getFilteringDataAux cfg env fuel msg mn := by
  intro fuel
  induction fuel with
  | zero => intro msg mn; rfl
  | succ k ih =>
    intro msg mn
    unfold getFilteringDataAux
    rw [getMessageQueryValidationOptions_norm]
    cases hg : getMessageQueryValidationOptions msg with
    | error e => rfl
    | ok entries =>
      simp only [Except.map]
      rw [filteringSynthPass_norm]
      cases hs : filteringSynthPass env entries with
      | error e => rfl
      | ok p =>
        simp only [Except.map]
        have hfm : (normDesc msg).fields = msg.fields.map normField := rfl
        rw [hfm, ← List.map_append,
          filteringFields_norm cfg env _ _ msg mn (fun d m => ih d m) (p.1 ++ msg.fields)]

theorem getSortingDataAux_norm (cfg : Config) (env : Env) :
    ∀ fuel msg mn, getSortingDataAux cfg (normEnv env) fuel (normDesc msg) mn =
      getSortingDataAux cfg env fuel msg mn := by
  intro fuel
  induction fuel with
  | zero => intro msg mn; rfl
  | succ k ih =>
    intro msg mn
    unfold getSortingDataAux
    rw [getMessageQueryValidationOptions_norm]
    cases hg : getMessageQueryValidationOptions msg with
    | error e => rfl
    | ok entries =>
      simp only [Except.map]
      rw [sortingSynthPass_norm]
      cases hs : sortingSynthPass env entries with
      | error e => rfl
      | ok p =>
        simp only [Except.map]
        have hfm : (normDesc msg).fields = msg.fields.map normField := rfl
        rw [hfm, ← List.map_append,
          sortingFields_norm cfg env _ _ msg mn (fun d m => ih d m) (p.1 ++ msg.fields)]

theorem getFieldSelectionDataAux_norm (cfg : Config) (env : Env) :
    ∀ fuel msg mn, getFieldSelectionDataAux cfg (normEnv env) fuel (normDesc msg) mn =
      getFieldSelectionDataAux cfg env fuel msg mn := by
  intro fuel
  induction fuel with
  | zero => intro msg mn; rfl
  | succ k ih =>
    intro msg mn
    unfold getFieldSelectionDataAux
    rw [getMessageQueryValidationOptions_norm]
    cases hg : getMessageQueryValidationOptions msg with
    | error e => rfl
    | ok entries =>
      simp only [Except.map]
      rw [fieldSelectionSynthPass_norm]
      cases hs : fieldSelectionSynthPass env entries with
      | error e => rfl
      | ok p =>
        simp only [Except.map]
        have hfm : (normDesc msg).fields = msg.fields.map normField := rfl
        rw [hfm, ← List.map_append,
          fieldSelectionFields_norm cfg env _ _ msg mn (fun d m => ih d m) (p.1 ++ msg.fields)]

/-- Claim C9: a message-kind field whose annotation supplies a non-empty
allowed-nested-field list is granted nesting permission, and the
resolved output never depends on which names that list contains: any two
schema repositories and root messages that agree after normalizing every
non-empty allowed-nested-field list (i.e. differ at most in the contents
of non-empty lists) resolve to identical tables for all three capability
kinds, at every fuel and budget. -/
theorem claim9_nested_list_contents_irrelevant :
    (∀ (cfg : Config) (msg : Descriptor) (o : Option QueryValidate),
      optNestedFields o ≠ [] → allowNested cfg msg o = true) ∧
    (∀ (cfg : Config) (env env2 : Env) (msg msg2 : Descriptor) (fuel mn : Nat),
      normEnv env = normEnv env2 → normDesc msg = normDesc msg2 →
      getFilteringDataAux cfg env fuel msg mn = getFilteringDataAux cfg env2 fuel msg2 mn ∧
      getSortingDataAux cfg env fuel msg mn = getSortingDataAux cfg env2 fuel msg2 mn ∧
      getFieldSelectionDataAux cfg env fuel msg mn =
        getFieldSelectionDataAux cfg env2 fuel msg2 mn) := by
  constructor
  · intro cfg msg o hne
    have hpos : 0 < (optNestedFields o).length := List.length_pos.mpr hne
    simp [allowNested, hpos]
  · intro cfg env env2 msg msg2 fuel mn hE hM
    refine ⟨?_, ?_, ?_⟩
    · rw [← getFilteringDataAux_norm cfg env fuel msg mn, hE, hM,
        getFilteringDataAux_norm cfg env2 fuel msg2 mn]
    · rw [← getSortingDataAux_norm cfg env fuel msg mn, hE, hM,
        getSortingDataAux_norm cfg env2 fuel msg2 mn]
    · rw [← getFieldSelectionDataAux_norm cfg env fuel msg mn, hE, hM,
        getFieldSelectionDataAux_norm cfg env2 fuel msg2 mn]

/-- An annotation opting into nesting via the list contents ["a"]. -/
def exAnnA : QueryValidate :=
  { filtering := none, sorting := none, fieldSelection := none,
    valueType := ValueType.DEFAULT, valueTypeUrl := "",
    enableNestedFields := false, nestedFields := ["a"] }

/-- The same annotation with list contents ["b", "c"]. -/
def exAnnB : QueryValidate :=
  { filtering := none, sorting := none, fieldSelection := none,
    valueType := ValueType.DEFAULT, valueTypeUrl := "",
    enableNestedFields := false, nestedFields := ["b", "c"] }

/-- A message whose nested field carries exAnnA. -/
def exM9a : Descriptor :=
  { name := "M9",
    fields := [{ name := "detail", typeName := ".pkg.M3", type := FieldType.TYPE_MESSAGE,
                 repeated := false, validate := some exAnnA }],
    msgOptions := none }

/-- The same message with exAnnB instead. -/
def exM9b : Descriptor :=
  { name := "M9",
    fields := [{ name := "detail", typeName := ".pkg.M3", type := FieldType.TYPE_MESSAGE,
                 repeated := false, validate := some exAnnB }],
    msgOptions := none }

/-- Claim C9 (witness): the two messages differ only in the contents of
the non-empty allowed-nested-field list; nesting is permitted and all
three resolved tables coincide. -/
theorem claim9_nested_list_contents_irrelevant_witness :
    allowNested exCfg exM9a (some exAnnA) = true ∧
    getFilteringDataAux exCfg exEnv 2 exM9a 2 = getFilteringDataAux exCfg exEnv 2 exM9b 2 ∧
    getSortingDataAux exCfg exEnv 2 exM9a 2 = getSortingDataAux exCfg exEnv 2 exM9b 2 ∧
    getFieldSelectionDataAux exCfg exEnv 2 exM9a 2 =
      getFieldSelectionDataAux exCfg exEnv 2 exM9b 2 := by
  have h := claim9_nested_list_contents_irrelevant
  have h2 := h.2 exCfg exEnv exEnv exM9a exM9b 2 2 rfl (by decide)
  exact ⟨h.1 exCfg exM9a (some exAnnA) (by decide), h2.1, h2.2.1, h2.2.2⟩

/-! Synthetic fields with absent sorting / field-selection sub-options
are disabled for those capabilities and contribute nothing. -/

/-- A field whose annotation references a synthetic target and whose
(possibly defaulted) sorting sub-option is disabled contributes no
sortable path. -/
theorem sortingOne_synth_disabled (cfg : Config) (env : Env)
    (recur : Descriptor → Nat → Option (Except String (List String)))
    (msg : Descriptor) (mn : Nat) (f : FieldDescriptorProto) (w : QueryValidate)
    (hv : f.validate = some w) (hu : w.valueTypeUrl ≠ "")
    (hl : (envLookup env w.valueTypeUrl).isSome = true)
    (hs : w.sorting.getD { disable := true } = { disable := true }) :
    sortingOne cfg env recur msg mn f = some (Except.ok []) := by
  obtain ⟨d, hd⟩ := Option.isSome_iff_exists.mp hl
  simp [sortingOne, getQueryValidationOptions, hv, hu, syntheticField, hd,
    optSortingDisable, hs]

/-- A field whose annotation references a synthetic target and whose
(possibly defaulted) field-selection sub-option is disabled contributes
no selectable path. -/
theorem fieldSelectionOne_synth_disabled (cfg : Config) (env : Env)
    (recur : Descriptor → Nat → Option (Except String (List String)))
    (msg : Descriptor) (mn : Nat) (f : FieldDescriptorProto) (w : QueryValidate)
    (hv : f.validate = some w) (hu : w.valueTypeUrl ≠ "")
    (hl : (envLookup env w.valueTypeUrl).isSome = true)
    (hs : w.fieldSelection.getD { disable := true } = { disable := true }) :
    fieldSelectionOne cfg env recur msg mn f = some (Except.ok []) := by
  obtain ⟨d, hd⟩ := Option.isSome_iff_exists.mp hl
  simp [fieldSelectionOne, getQueryValidationOptions, hv, hu, syntheticField, hd,
    optFieldSelectionDisable, hs]

/-- The per-entry transformation applied by
getMessageQueryValidationOptions (proof-side abbreviation of its body). -/
def gmqvoProcess (v : QueryValidate) : QueryValidate :=
  let o1 := if v.nestedFields ≠ [] then { v with enableNestedFields := true } else v
  { o1 with
    sorting := some (o1.sorting.getD { disable := true }),
    fieldSelection := some (o1.fieldSelection.getD { disable := true }) }

theorem gMQVOEntries_cons (mName n : String) (v : QueryValidate) (es : List QueryValidateEntry)
    (hn : n ≠ "") :
    gMQVOEntries mName ({ name := n, value := some v } :: es) =
      Except.map (fun rest => { name := n, value := some (gmqvoProcess v) } :: rest)
        (gMQVOEntries mName es) := by
  rw [gMQVOEntries]
  simp only [hn, if_false, reduceIte, ite_false]
  cases gMQVOEntries mName es with
  | error e => rfl
  | ok rest => rfl

theorem gmqvoProcess_sorting (v : QueryValidate) (h : v.sorting = none) :
    (gmqvoProcess v).sorting = some { disable := true } := by
  by_cases hnf : v.nestedFields = [] <;> simp [gmqvoProcess, hnf, h]

theorem gmqvoProcess_fieldSelection (v : QueryValidate) (h : v.fieldSelection = none) :
    (gmqvoProcess v).fieldSelection = some { disable := true } := by
  by_cases hnf : v.nestedFields = [] <;> simp [gmqvoProcess, hnf, h]

theorem gmqvoProcess_url (v : QueryValidate) :
    (gmqvoProcess v).valueTypeUrl = v.valueTypeUrl := by
  by_cases hnf : v.nestedFields = [] <;> simp [gmqvoProcess, hnf]

/-- The body of getSortingDataAux after the message options have been
read (proof-side abbreviation). -/
def sortingResolveCore (cfg : Config) (env : Env)
    (recur : Descriptor → Nat → Option (Except String (List String)))
    (msg : Descriptor) (mn : Nat) (entries : List QueryValidateEntry)
    (fields : List FieldDescriptorProto) : Option (Except String (List String)) :=
  match sortingSynthPass env entries with
  | Except.error e => some (Except.error e)
  | Except.ok (extra, data0) =>
    match sortingFields cfg env recur msg mn (extra ++ fields) with
    | none => none
    | some (Except.error e) => some (Except.error e)
    | some (Except.ok rest) => some (Except.ok (data0 ++ rest))

theorem getSortingDataAux_succ (cfg : Config) (env : Env) (fuel : Nat) (msg : Descriptor) (mn : Nat) :
    getSortingDataAux cfg env (fuel + 1) msg mn =
      match getMessageQueryValidationOptions msg with
      | Except.error e => some (Except.error e)
      | Except.ok entries =>
        sortingResolveCore cfg env (fun d m => getSortingDataAux cfg env fuel d m)
          msg mn entries msg.fields := rfl

/-- The body of getFieldSelectionDataAux after the message options have
been read (proof-side abbreviation). -/
def fieldSelectionResolveCore (cfg : Config) (env : Env)
    (recur : Descriptor → Nat → Option (Except String (List String)))
    (msg : Descriptor) (mn : Nat) (entries : List QueryValidateEntry)
    (fields : List FieldDescriptorProto) : Option (Except String (List String)) :=
  match fieldSelectionSynthPass env entries with
  | Except.error e => some (Except.error e)
  | Except.ok (extra, data0) =>
    match fieldSelectionFields cfg env recur msg mn (extra ++ fields) with
    | none => none
    | some (Except.error e) => some (Except.error e)
    | some (Except.ok rest) => some (Except.ok (data0 ++ rest))

theorem getFieldSelectionDataAux_succ (cfg : Config) (env : Env) (fuel : Nat) (msg : Descriptor) (mn : Nat) :
    getFieldSelectionDataAux cfg env (fuel + 1) msg mn =
      match getMessageQueryValidationOptions msg with
      | Except.error e => some (Except.error e)
      | Except.ok entries =>
        fieldSelectionResolveCore cfg env (fun d m => getFieldSelectionDataAux cfg env fuel d m)
          msg mn entries msg.fields := rfl

/-- The resolvers read the containing message only through its
nesting-enabled flag. -/
theorem sortingOne_msg_congr (cfg : Config) (env : Env)
    (recur : Descriptor → Nat → Option (Except String (List String)))
    (msg1 msg2 : Descriptor) (mn : Nat) (f : FieldDescriptorProto)
    (h : msgOptEnableNestedFields (getMessageOptions msg1) =
      msgOptEnableNestedFields (getMessageOptions msg2)) :
    sortingOne cfg env recur msg1 mn f = sortingOne cfg env recur msg2 mn f := by
  have ha : allowNested cfg msg1 = allowNested cfg msg2 := by
    funext o
    unfold allowNested
    rw [h]
  unfold sortingOne
  rw [ha]

theorem sortingFields_msg_congr (cfg : Config) (env : Env)
    (recur : Descriptor → Nat → Option (Except String (List String)))
    (msg1 msg2 : Descriptor) (mn : Nat)
    (h : msgOptEnableNestedFields (getMessageOptions msg1) =
      msgOptEnableNestedFields (getMessageOptions msg2)) :
    ∀ fs, sortingFields cfg env recur msg1 mn fs = sortingFields cfg env recur msg2 mn fs := by
  intro fs
  induction fs with
  | nil => rfl
  | cons f fs ih =>
    simp only [sortingFields]
    rw [sortingOne_msg_congr cfg env recur msg1 msg2 mn f h, ih]

theorem sortingResolveCore_msg_congr (cfg : Config) (env : Env)
    (recur : Descriptor → Nat → Option (Except String (List String)))
    (msg1 msg2 : Descriptor) (mn : Nat) (entries : List QueryValidateEntry)
    (fields : List FieldDescriptorProto)
    (h : msgOptEnableNestedFields (getMessageOptions msg1) =
      msgOptEnableNestedFields (getMessageOptions msg2)) :
    sortingResolveCore cfg env recur msg1 mn entries fields =
      sortingResolveCore cfg env recur msg2 mn entries fields := by
  unfold sortingResolveCore
  cases sortingSynthPass env entries with
  | error e => rfl
  | ok p =>
    obtain ⟨extra, data0⟩ := p
    dsimp only
    rw [sortingFields_msg_congr cfg env recur msg1 msg2 mn h]

theorem fieldSelectionResolveCore_msg_congr (cfg : Config) (env : Env)
    (recur : Descriptor → Nat → Option (Except String (List String)))
    (msg1 msg2 : Descriptor) (mn : Nat) (entries : List QueryValidateEntry)
    (fields : List FieldDescriptorProto) :
    fieldSelectionResolveCore cfg env recur msg1 mn entries fields =
      fieldSelectionResolveCore cfg env recur msg2 mn entries fields := by
  have hone : ∀ f, fieldSelectionOne cfg env recur msg1 mn f =
      fieldSelectionOne cfg env recur msg2 mn f := by
    intro f
    unfold fieldSelectionOne
    rfl
  have hfs : ∀ fs, fieldSelectionFields cfg env recur msg1 mn fs =
      fieldSelectionFields cfg env recur msg2 mn fs := by
    intro fs
    induction fs with
    | nil => rfl
    | cons f fs ih =>
      simp only [fieldSelectionFields]
      rw [hone f, ih]
  unfold fieldSelectionResolveCore
  cases fieldSelectionSynthPass env entries with
  | error e => rfl
  | ok p =>
    obtain ⟨extra, data0⟩ := p
    dsimp only
    rw [hfs]

/-- A processed synthetic entry whose sorting sub-option is disabled
contributes nothing to the sorting resolution of a message: dropping it
from the entry list leaves the result unchanged (it yields no direct
path, and its materialized field, when it is a reference entry, is
skipped by the disable check). -/
theorem sortingResolveCore_skip (cfg : Config) (env : Env)
    (recur : Descriptor → Nat → Option (Except String (List String)))
    (msg : Descriptor) (mn : Nat) (pe : QueryValidateEntry) (w : QueryValidate)
    (rest : List QueryValidateEntry) (fields : List FieldDescriptorProto)
    (hpe : pe.value = some w)
    (hw : w.sorting = some { disable := true })
    (hurl : w.valueTypeUrl = "" ∨ (envLookup env w.valueTypeUrl).isSome = true) :
    sortingResolveCore cfg env recur msg mn (pe :: rest) fields =
      sortingResolveCore cfg env recur msg mn rest fields := by
  unfold sortingResolveCore
  by_cases hu : w.valueTypeUrl = ""
  · rw [sortingSynthPass]
    simp only [hpe, syntheticField, hu, if_true, reduceIte, ite_true,
      optSortingDisable, hw, Bool.not_true, if_false, ite_false, Bool.false_eq_true]
    cases sortingSynthPass env rest with
    | error e => rfl
    | ok p => rfl
  · rcases hurl with h | hl
    · exact absurd h hu
    obtain ⟨d, hd⟩ := Option.isSome_iff_exists.mp hl
    rw [sortingSynthPass]
    simp only [hpe, syntheticField, hu, if_false, reduceIte, ite_false, hd]
    cases hsp : sortingSynthPass env rest with
    | error e => rfl
    | ok p =>
      obtain ⟨extra, data⟩ := p
      have hone : sortingOne cfg env recur msg mn
          { name := pe.name, typeName := w.valueTypeUrl, type := FieldType.TYPE_MESSAGE,
            repeated := false, validate := some w } = some (Except.ok []) :=
        sortingOne_synth_disabled cfg env recur msg mn _ w rfl hu hl (by rw [hw]; rfl)
      simp only [sortingFields, hone]
      cases sortingFields cfg env recur msg mn (extra ++ fields) with
      | none => rfl
      | some r =>
        cases r with
        | error e => rfl
        | ok rest2 => simp

/-- The field-selection analogue of the previous lemma. -/
theorem fieldSelectionResolveCore_skip (cfg : Config) (env : Env)
    (recur : Descriptor → Nat → Option (Except String (List String)))
    (msg : Descriptor) (mn : Nat) (pe : QueryValidateEntry) (w : QueryValidate)
    (rest : List QueryValidateEntry) (fields : List FieldDescriptorProto)
    (hpe : pe.value = some w)
    (hw : w.fieldSelection = some { disable := true })
    (hurl : w.valueTypeUrl = "" ∨ (envLookup env w.valueTypeUrl).isSome = true) :
    fieldSelectionResolveCore cfg env recur msg mn (pe :: rest) fields =
      fieldSelectionResolveCore cfg env recur msg mn rest fields := by
  unfold fieldSelectionResolveCore
  by_cases hu : w.valueTypeUrl = ""
  · rw [fieldSelectionSynthPass]
    simp only [hpe, syntheticField, hu, if_true, reduceIte, ite_true,
      optFieldSelectionDisable, hw, Bool.not_true, if_false, ite_false, Bool.false_eq_true]
    cases fieldSelectionSynthPass env rest with
    | error e => rfl
    | ok p => rfl
  · rcases hurl with h | hl
    · exact absurd h hu
    obtain ⟨d, hd⟩ := Option.isSome_iff_exists.mp hl
    rw [fieldSelectionSynthPass]
    simp only [hpe, syntheticField, hu, if_false, reduceIte, ite_false, hd]
    cases hsp : fieldSelectionSynthPass env rest with
    | error e => rfl
    | ok p =>
      obtain ⟨extra, data⟩ := p
      have hone : fieldSelectionOne cfg env recur msg mn
          { name := pe.name, typeName := w.valueTypeUrl, type := FieldType.TYPE_MESSAGE,
            repeated := false, validate := some w } = some (Except.ok []) :=
        fieldSelectionOne_synth_disabled cfg env recur msg mn _ w rfl hu hl (by rw [hw]; rfl)
      simp only [fieldSelectionFields, hone]
      cases fieldSelectionFields cfg env recur msg mn (extra ++ fields) with
      | none => rfl
      | some r =>
        cases r with
        | error e => rfl
        | ok rest2 => simp

/-- Removing a message-level synthetic declaration whose sorting
sub-option is absent leaves the resolved sorting table unchanged. -/
theorem sortingAux_synth_entry_removal (cfg : Config) (env : Env)
    (fuel mn : Nat) (mName : String) (fs : List FieldDescriptorProto)
    (enf : Bool) (dl : Nat) (n : String) (v : QueryValidate) (es : List QueryValidateEntry)
    (hn : n ≠ "")
    (hl : v.valueTypeUrl = "" ∨ (envLookup env v.valueTypeUrl).isSome = true)
    (hvs : v.sorting = none) :
    getSortingDataAux cfg env (fuel + 1)
      { name := mName, fields := fs,
        msgOptions := some { validate := { name := n, value := some v } :: es,
                             enableNestedFields := enf, nestedFieldDepthLimit := dl } } mn =
    getSortingDataAux cfg env (fuel + 1)
      { name := mName, fields := fs,
        msgOptions := some { validate := es,
                             enableNestedFields := enf, nestedFieldDepthLimit := dl } } mn := by
  rw [getSortingDataAux_succ, getSortingDataAux_succ]
  have hg1 : getMessageQueryValidationOptions
      { name := mName, fields := fs,
        msgOptions := some { validate := { name := n, value := some v } :: es,
                             enableNestedFields := enf, nestedFieldDepthLimit := dl } } =
      gMQVOEntries mName ({ name := n, value := some v } :: es) := rfl
  have hg2 : getMessageQueryValidationOptions
      { name := mName, fields := fs,
        msgOptions := some { validate := es,
                             enableNestedFields := enf, nestedFieldDepthLimit := dl } } =
      gMQVOEntries mName es := rfl
  rw [hg1, hg2, gMQVOEntries_cons mName n v es hn]
  cases hrec : gMQVOEntries mName es with
  | error e => rfl
  | ok rest =>
    dsimp only [Except.map]
    rw [sortingResolveCore_skip cfg env _ _ mn
      { name := n, value := some (gmqvoProcess v) } (gmqvoProcess v) rest _ rfl
      (gmqvoProcess_sorting v hvs) (by rw [gmqvoProcess_url]; exact hl)]
    exact sortingResolveCore_msg_congr cfg env _ _ _ mn rest _ rfl

/-- Removing a message-level synthetic declaration whose field-selection
sub-option is absent leaves the resolved selectable-path table
unchanged. -/
theorem fieldSelectionAux_synth_entry_removal (cfg : Config) (env : Env)
    (fuel mn : Nat) (mName : String) (fs : List FieldDescriptorProto)
    (enf : Bool) (dl : Nat) (n : String) (v : QueryValidate) (es : List QueryValidateEntry)
    (hn : n ≠ "")
    (hl : v.valueTypeUrl = "" ∨ (envLookup env v.valueTypeUrl).isSome = true)
    (hvs : v.fieldSelection = none) :
    getFieldSelectionDataAux cfg env (fuel + 1)
      { name := mName, fields := fs,
        msgOptions := some { validate := { name := n, value := some v } :: es,
                             enableNestedFields := enf, nestedFieldDepthLimit := dl } } mn =
    getFieldSelectionDataAux cfg env (fuel + 1)
      { name := mName, fields := fs,
        msgOptions := some { validate := es,
                             enableNestedFields := enf, nestedFieldDepthLimit := dl } } mn := by
  rw [getFieldSelectionDataAux_succ, getFieldSelectionDataAux_succ]
  have hg1 : getMessageQueryValidationOptions
      { name := mName, fields := fs,
        msgOptions := some { validate := { name := n, value := some v } :: es,
                             enableNestedFields := enf, nestedFieldDepthLimit := dl } } =
      gMQVOEntries mName ({ name := n, value := some v } :: es) := rfl
  have hg2 : getMessageQueryValidationOptions
      { name := mName, fields := fs,
        msgOptions := some { validate := es,
                             enableNestedFields := enf, nestedFieldDepthLimit := dl } } =
      gMQVOEntries mName es := rfl
  rw [hg1, hg2, gMQVOEntries_cons mName n v es hn]
  cases hrec : gMQVOEntries mName es with
  | error e => rfl
  | ok rest =>
    dsimp only [Except.map]
    rw [fieldSelectionResolveCore_skip cfg env _ _ mn
      { name := n, value := some (gmqvoProcess v) } (gmqvoProcess v) rest _ rfl
      (gmqvoProcess_fieldSelection v hvs) (by rw [gmqvoProcess_url]; exact hl)]
    exact fieldSelectionResolveCore_msg_congr cfg env _ _ _ mn rest _

/-- Claim C10: a synthetic field whose annotation leaves the sorting
sub-option unset is treated as sorting-disabled, and likewise for the
field-selection sub-option; such a synthetic field contributes no path
to the sorting or selectable-path tables.  Concretely: a real field
whose annotation carries a synthetic target reference and no sorting
(resp. no field-selection) sub-option contributes nothing to the sorting
(resp. field-selection) resolution, and a message-level synthetic
declaration with the sub-option unset can be dropped from the message
without changing the corresponding resolved table. -/
theorem claim10_synthetic_defaults_disabled (cfg : Config) (env : Env)
    (recur : Descriptor → Nat → Option (Except String (List String)))
    (msg : Descriptor) (fuel mn dl : Nat) (mName n : String) (enf : Bool)
    (fs : List FieldDescriptorProto) (f : FieldDescriptorProto)
    (v : QueryValidate) (es : List QueryValidateEntry) :
    (f.validate = some v → v.valueTypeUrl ≠ "" →
      (envLookup env v.valueTypeUrl).isSome = true → v.sorting = none →
      sortingOne cfg env recur msg mn f = some (Except.ok [])) ∧
    (f.validate = some v → v.valueTypeUrl ≠ "" →
      (envLookup env v.valueTypeUrl).isSome = true → v.fieldSelection = none →
      fieldSelectionOne cfg env recur msg mn f = some (Except.ok [])) ∧
    (n ≠ "" → (v.valueTypeUrl = "" ∨ (envLookup env v.valueTypeUrl).isSome = true) →
      v.sorting = none →
      getSortingDataAux cfg env (fuel + 1)
        { name := mName, fields := fs,
          msgOptions := some { validate := { name := n, value := some v } :: es,
                               enableNestedFields := enf, nestedFieldDepthLimit := dl } } mn =
      getSortingDataAux cfg env (fuel + 1)
        { name := mName, fields := fs,
          msgOptions := some { validate := es,
                               enableNestedFields := enf, nestedFieldDepthLimit := dl } } mn) ∧
    (n ≠ "" → (v.valueTypeUrl = "" ∨ (envLookup env v.valueTypeUrl).isSome = true) →
      v.fieldSelection = none →
      getFieldSelectionDataAux cfg env (fuel + 1)
        { name := mName, fields := fs,
          msgOptions := some { validate := { name := n, value := some v } :: es,
                               enableNestedFields := enf, nestedFieldDepthLimit := dl } } mn =
      getFieldSelectionDataAux cfg env (fuel + 1)
        { name := mName, fields := fs,
          msgOptions := some { validate := es,
                               enableNestedFields := enf, nestedFieldDepthLimit := dl } } mn) := by
  refine ⟨?_, ?_, ?_, ?_⟩
  · intro hv hu hlk hvs
    exact sortingOne_synth_disabled cfg env recur msg mn f v hv hu hlk (by rw [hvs]; rfl)
  · intro hv hu hlk hvs
    exact fieldSelectionOne_synth_disabled cfg env recur msg mn f v hv hu hlk (by rw [hvs]; rfl)
  · intro hn hl hvs
    exact sortingAux_synth_entry_removal cfg env fuel mn mName fs enf dl n v es hn hl hvs
  · intro hn hl hvs
    exact fieldSelectionAux_synth_entry_removal cfg env fuel mn mName fs enf dl n v es hn hl hvs

/-- An annotation referencing a synthetic target message with neither
sorting nor field-selection sub-options set. -/
def exSynthRef : QueryValidate :=
  { filtering := none, sorting := none, fieldSelection := none,
    valueType := ValueType.DEFAULT, valueTypeUrl := ".pkg.M3",
    enableNestedFields := false, nestedFields := [] }

/-- A real field carrying the synthetic reference annotation. -/
def exSynthRefField : FieldDescriptorProto :=
  { name := "virt", typeName := "", type := FieldType.TYPE_STRING,
    repeated := false, validate := some exSynthRef }

/-- A plain string field. -/
def exCode : FieldDescriptorProto :=
  { name := "code", typeName := "", type := FieldType.TYPE_STRING,
    repeated := false, validate := none }

/-- A message declaring the synthetic entry "virt". -/
def exMW : Descriptor :=
  { name := "MW", fields := [exCode],
    msgOptions := some { validate := [{ name := "virt", value := some exSynthRef }],
                         enableNestedFields := false, nestedFieldDepthLimit := 0 } }

/-- The same message without the synthetic entry. -/
def exMWo : Descriptor :=
  { name := "MW", fields := [exCode],
    msgOptions := some { validate := [],
                         enableNestedFields := false, nestedFieldDepthLimit := 0 } }

/-- Claim C10 (witness): the synthetic reference field contributes no
sorting or selectable path, and dropping the synthetic entry from the
message leaves both resolved tables unchanged. -/
theorem claim10_synthetic_defaults_disabled_witness :
    sortingOne exCfg exEnv (fun d m => getSortingDataAux exCfg exEnv 1 d m) exM2 2
      exSynthRefField = some (Except.ok []) ∧
    fieldSelectionOne exCfg exEnv (fun d m => getSortingDataAux exCfg exEnv 1 d m) exM2 2
      exSynthRefField = some (Except.ok []) ∧
    getSortingDataAux exCfg exEnv 2 exMW 2 = getSortingDataAux exCfg exEnv 2 exMWo 2 ∧
    getFieldSelectionDataAux exCfg exEnv 2 exMW 2 =
      getFieldSelectionDataAux exCfg exEnv 2 exMWo 2 := by
  have h := claim10_synthetic_defaults_disabled exCfg exEnv
    (fun d m => getSortingDataAux exCfg exEnv 1 d m) exM2 1 2 0 "MW" "virt" false
    [exCode] exSynthRefField exSynthRef []
  exact ⟨h.1 rfl (by decide) rfl rfl,
    h.2.1 rfl (by decide) rfl rfl,
    h.2.2.1 (by decide) (Or.inr rfl) rfl,
    h.2.2.2 (by decide) (Or.inr rfl) rfl⟩
